import Mathlib

/-!
# CheetahSystem: packet assembly, driver state machine, time matching

A shallow embedding of `src/system/cheetah_system.cpp`.

* Times and stamps (`double` timestamps, `ros::Time`) are only stored and handed on by this
  code; they are written as rationals. The one computation on them, line 144's
  `ros::Time - ros::Duration(double)`, belongs to the ROS time library: it is the
  collaborator operation `timeMinusDuration`, which may throw.
* The angular velocities compared by the scan are doubles (`Double`): a finite value, an
  infinity or not-a-number. `fabs` and `>` are exact on doubles; the subtraction rounds, and
  the rounding function is the collaborator operation `round`.
* `std::queue` is a list: `front` is the head, `pop` drops the head, `push` appends.
* The estimator, the robot state and the publishers are external collaborators; they are
  reached through the record `Collaborators`, and every call made on them is logged as an
  `Event`.
* `cheetah_packet_.imu` is a pointer: it is `none` until an assembly assigns it, and
  dereferencing it while `none` is a fault (`timesyncCallback` then gives `none`). A call
  that ends otherwise gives the system it leaves and whether an exception left it (`Ended`).
-/

namespace Cheetah

/-- An IEEE double: not-a-number, an infinity, or a finite value. Every finite double is a
rational; the model admits every rational as a finite value. -/
inductive Double where
  | nan
  | posInf
  | negInf
  | fin (q : ℚ)
  deriving DecidableEq

instance : OfNat Double 0 := ⟨Double.fin 0⟩

instance : OfNat Double 1 := ⟨Double.fin 1⟩

/-- The C function `fabs` on doubles (exact). -/
def Double.fabs : Double → Double
  | Double.nan => Double.nan
  | Double.posInf => Double.posInf
  | Double.negInf => Double.posInf
  | Double.fin q => Double.fin |q|

/-- The comparison `a > b` on doubles (exact; false as soon as an operand is not-a-number). -/
def Double.gt : Double → Double → Bool
  | Double.fin x, Double.fin y => decide (x > y)
  | Double.posInf, Double.fin _ => true
  | Double.posInf, Double.negInf => true
  | Double.fin _, Double.negInf => true
  | _, _ => false

/-- The subtraction `a - b` on doubles: the exact difference of two finite values is rounded
by `round`; not-a-number propagates; the infinities follow IEEE 754. -/
def Double.sub (round : ℚ → Double) : Double → Double → Double
  | Double.fin x, Double.fin y => round (x - y)
  | Double.fin _, Double.posInf => Double.negInf
  | Double.fin _, Double.negInf => Double.posInf
  | Double.posInf, Double.fin _ => Double.posInf
  | Double.posInf, Double.negInf => Double.posInf
  | Double.negInf, Double.fin _ => Double.negInf
  | Double.negInf, Double.posInf => Double.negInf
  | _, _ => Double.nan

/-- A three-axis vector of doubles, as `geometry_msgs::Vector3`. -/
structure Vector3 where
  x : Double
  y : Double
  z : Double
  deriving DecidableEq

/-- The IMU reading held in `imu_q` and pointed to by `cheetah_packet_.imu`. Only the
angular velocity is read by the code under study. -/
structure ImuMeasurement where
  angular_velocity : Vector3
  deriving DecidableEq

/-- The message received by `timesyncCallback` (`sensor_msgs::Imu`): the header stamp, the
angular velocity, and one further field standing for the parts the callback does not copy. -/
structure SensorImu where
  stamp : ℚ
  angular_velocity : Vector3
  linear_acceleration : Vector3
  deriving DecidableEq

/-- The shared buffer `cheetah_lcm_data_t`: four queues filled by the producers. -/
structure CheetahBuffer (J C : Type) where
  timestamp_q : List ℚ
  imu_q : List ImuMeasurement
  joint_state_q : List J
  contact_q : List C

/-- The packet `cheetah_packet_`. The three readings are pointers, unset before the first
assembly. -/
structure CheetahPacket (J C : Type) where
  time : ℚ
  imu : Option ImuMeasurement
  joint_state : Option J
  contact : Option C

/-- Reads the packet time, as `CheetahPacket::getTime`. -/
def CheetahPacket.getTime {J C : Type} (p : CheetahPacket J C) : ℚ := p.time

/-- Writes the packet time, as `CheetahPacket::setTime`. -/
def CheetahPacket.setTime {J C : Type} (p : CheetahPacket J C) (t : ℚ) : CheetahPacket J C :=
  { p with time := t }

/-- The members of `CheetahSystem` that `step`, `updateNextPacket` and `timesyncCallback`
read or write. `E` is the estimator, `S` the robot state. The counter `updated_` is taken
unbounded, and `imu_buffer_` is a sequence that `push_back` extends at the back. -/
structure CheetahSystem (J C E S : Type) where
  cheetah_buffer_ : CheetahBuffer J C
  cheetah_packet_ : CheetahPacket J C
  state_ : S
  estimator_ : E
  enable_pose_publisher_ : Bool
  enable_state_publisher_ : Bool
  matched_ : Bool
  updated_ : Nat
  imu_buffer_ : List SensorImu
  timestamp_ : ℚ

/-- The operations of the external collaborators called by the code: the robot state
(`set`, `getTime`, `setBasetime`) and the estimator. Operations taking `state_` by reference
return the new robot state next to the new estimator. Two more operations come from below the
code: `round`, the rounding of an exact difference to a double, and `timeMinusDuration stamp t`,
the value of the ROS expression `stamp - ros::Duration(t)`, `none` when it throws. -/
structure Collaborators (J C E S : Type) where
  round : ℚ → Double
  timeMinusDuration : ℚ → ℚ → Option ℚ
  set : CheetahPacket J C → S → S
  getTime : S → ℚ
  setBasetime : ℚ → S → S
  enabled : E → Bool
  biasInitialized : E → Bool
  setContacts : S → E → E × S
  update : CheetahPacket J C → S → E → E × S
  initState : ℚ → CheetahPacket J C → S → E → E × S
  enableFilter : E → E
  initBias : CheetahPacket J C → E → E

/-- One observable call made by the code, in program order. -/
inductive Event (J C S : Type) where
  | lock
  | unlock
  | stateSet (p : CheetahPacket J C)
  | enabledQuery (r : Bool)
  | setContacts (st : S)
  | update (p : CheetahPacket J C) (st : S)
  | setBasetime (t : ℚ)
  | posePublish (st : S)
  | poseCallback (st : S)
  | statePublish (st : S)
  | biasInitializedQuery (r : Bool)
  | initState (t : ℚ) (p : CheetahPacket J C) (st : S)
  | enableFilter
  | initBias (p : CheetahPacket J C)

/-- What a call returns: its boolean result (if any), the system afterwards, the calls made. -/
structure Outcome (J C E S : Type) where
  hasUpdated : Bool
  sys : CheetahSystem J C E S
  log : List (Event J C S)

/-- How a callback or a run ended: the system it leaves, and whether it was left by an
exception (`threw`) rather than by returning. -/
structure Ended (J C E S : Type) where
  sys : CheetahSystem J C E S
  threw : Bool

section Code

variable {J C E S : Type}

/-- The constructor's assignments (lines 33-35) over given collaborators and settings: nothing
matched, no update counted, empty sample buffer, zero stamp, packet not yet assigned. -/
def CheetahSystem.init (buffer : CheetahBuffer J C) (st : S) (est : E)
    (pose state : Bool) : CheetahSystem J C E S :=
  { cheetah_buffer_ := buffer
    cheetah_packet_ := { time := 0, imu := none, joint_state := none, contact := none }
    state_ := st
    estimator_ := est
    enable_pose_publisher_ := pose
    enable_state_publisher_ := state
    matched_ := false
    updated_ := 0
    imu_buffer_ := []
    timestamp_ := 0 }

/-- `CheetahSystem::updateNextPacket` (lines 89-113). -/
def updateNextPacket (s : CheetahSystem J C E S) : Outcome J C E S :=
  let b := s.cheetah_buffer_
  if !b.timestamp_q.isEmpty && !b.imu_q.isEmpty && !b.joint_state_q.isEmpty
      && !b.contact_q.isEmpty then
    let timestamp := b.timestamp_q.headD 0
    let p := s.cheetah_packet_.setTime timestamp
    let p := { p with imu := b.imu_q.head? }
    let p := { p with joint_state := b.joint_state_q.head? }
    let p := { p with contact := b.contact_q.head? }
    let b := { b with timestamp_q := b.timestamp_q.tail }
    let b := { b with imu_q := b.imu_q.tail }
    let b := { b with joint_state_q := b.joint_state_q.tail }
    let b := { b with contact_q := b.contact_q.tail }
    { hasUpdated := true
      sys := { s with cheetah_packet_ := p, cheetah_buffer_ := b }
      log := [Event.lock, Event.unlock] }
  else
    { hasUpdated := false, sys := s, log := [Event.lock, Event.unlock] }

/-- `CheetahSystem::step` (lines 40-70). -/
def step (P : Collaborators J C E S) (s : CheetahSystem J C E S) : Outcome J C E S :=
  let r := updateNextPacket s
  if r.hasUpdated then
    let s := { r.sys with updated_ := r.sys.updated_ + 1 }
    let s := { s with state_ := P.set s.cheetah_packet_ s.state_ }
    let log := r.log ++ [Event.stateSet s.cheetah_packet_]
    if P.enabled s.estimator_ then
      let log := log ++ [Event.enabledQuery true, Event.setContacts s.state_]
      let c := P.setContacts s.state_ s.estimator_
      let log := log ++ [Event.update s.cheetah_packet_ c.2]
      let u := P.update s.cheetah_packet_ c.2 c.1
      let log := log ++ [Event.setBasetime s.timestamp_]
      let s := { s with estimator_ := u.1, state_ := P.setBasetime s.timestamp_ u.2 }
      let log := if s.enable_pose_publisher_ then
          log ++ [Event.posePublish s.state_, Event.poseCallback s.state_] else log
      let log := if s.enable_state_publisher_ then
          log ++ [Event.statePublish s.state_] else log
      { hasUpdated := true, sys := s, log := log }
    else
      let log := log ++ [Event.enabledQuery false]
      if P.biasInitialized s.estimator_ then
        let log := log ++ [Event.biasInitializedQuery true,
          Event.initState s.cheetah_packet_.getTime s.cheetah_packet_ s.state_]
        let i := P.initState s.cheetah_packet_.getTime s.cheetah_packet_ s.state_ s.estimator_
        let log := log ++ [Event.enableFilter]
        { hasUpdated := true
          sys := { s with estimator_ := P.enableFilter i.1, state_ := i.2 }
          log := log }
      else
        let log := log ++ [Event.biasInitializedQuery false, Event.initBias s.cheetah_packet_]
        { hasUpdated := true
          sys := { s with estimator_ := P.initBias s.cheetah_packet_ s.estimator_ }
          log := log }
  else
    { hasUpdated := false, sys := r.sys, log := r.log }

/-- The tolerance `epsilon` of `timesyncCallback` (line 127): the double nearest to 0.0001,
which is 7378697629483821 / 2^66. -/
def epsilon : Double := Double.fin (7378697629483821 / 2 ^ 66)

/-- The body of the scan loop's test (lines 131-138): `match` starts true and is cleared by
the first of the three comparisons `fabs(a - b) > epsilon` that holds. -/
def axesMatch (P : Collaborators J C E S) (imu : ImuMeasurement) (buffer : SensorImu) : Bool :=
  if Double.gt (Double.fabs
      (Double.sub P.round imu.angular_velocity.x buffer.angular_velocity.x)) epsilon then false
  else if Double.gt (Double.fabs
      (Double.sub P.round imu.angular_velocity.y buffer.angular_velocity.y)) epsilon then false
  else if Double.gt (Double.fabs
      (Double.sub P.round imu.angular_velocity.z buffer.angular_velocity.z)) epsilon then false
  else true

/-- The body of `if (match == true)` (lines 140-146) for the sample `buffer`: `matched_` is
set, then `timestamp_` is assigned the value of `buffer.header.stamp -
ros::Duration(state_.getTime())`; when that expression throws, the assignment is not made and
the exception leaves the callback. -/
def resolveOffset (P : Collaborators J C E S) (s : CheetahSystem J C E S)
    (buffer : SensorImu) : Ended J C E S :=
  let s := { s with matched_ := true }
  match P.timeMinusDuration buffer.stamp (P.getTime s.state_) with
  | none => { sys := s, threw := true }
  | some t => { sys := { s with timestamp_ := t }, threw := false }

/-- The scan loop of `timesyncCallback` (lines 130-148) over the samples still to visit.
Each iteration dereferences `cheetah_packet_.imu`; the first sample passing the test is
handled by `resolveOffset` and ends the loop. -/
def scanBuffer (P : Collaborators J C E S) :
    List SensorImu → CheetahSystem J C E S → Option (Ended J C E S)
  | [], s => some { sys := s, threw := false }
  | buffer :: rest, s =>
    match s.cheetah_packet_.imu with
    | none => none
    | some imu =>
      if axesMatch P imu buffer then some (resolveOffset P s buffer)
      else scanBuffer P rest s

/-- The first block of `timesyncCallback` (lines 118-126): keep a copy of the message's stamp
and angular velocity while warm-up is over and fewer than 100 samples are held. -/
def bufferSample (s : CheetahSystem J C E S) (imu_message : SensorImu) :
    CheetahSystem J C E S :=
  if s.updated_ ≥ 15 ∧ s.imu_buffer_.length < 100 then
    let imu_b : SensorImu :=
      { stamp := imu_message.stamp
        angular_velocity := imu_message.angular_velocity
        linear_acceleration := ⟨0, 0, 0⟩ }
    { s with imu_buffer_ := s.imu_buffer_ ++ [imu_b] }
  else s

/-- `CheetahSystem::timesyncCallback` (lines 116-154): `bufferSample`, then the scan when
nothing is matched yet and warm-up is over. -/
def timesyncCallback (P : Collaborators J C E S) (s : CheetahSystem J C E S)
    (imu_message : SensorImu) : Option (Ended J C E S) :=
  let s := bufferSample s imu_message
  if s.matched_ = false ∧ s.updated_ ≥ 15 then scanBuffer P s.imu_buffer_ s
  else some { sys := s, threw := false }

/-! ## Producers, repeated calls and runs -/

/-- One aligned tuple as a producer pushes it: a timestamp and the three readings. -/
structure Reading (J C : Type) where
  timestamp : ℚ
  imu : ImuMeasurement
  joint_state : J
  contact : C

/-- The four queues, all empty. -/
def CheetahBuffer.empty : CheetahBuffer J C :=
  { timestamp_q := [], imu_q := [], joint_state_q := [], contact_q := [] }

/-- A producer pushes one tuple: each component goes to the back of its queue. -/
def CheetahBuffer.push (b : CheetahBuffer J C) (r : Reading J C) : CheetahBuffer J C :=
  { timestamp_q := b.timestamp_q ++ [r.timestamp]
    imu_q := b.imu_q ++ [r.imu]
    joint_state_q := b.joint_state_q ++ [r.joint_state]
    contact_q := b.contact_q ++ [r.contact] }

/-- Pushes the tuples of a list, first to last. -/
def CheetahBuffer.pushAll (b : CheetahBuffer J C) (l : List (Reading J C)) :
    CheetahBuffer J C :=
  l.foldl CheetahBuffer.push b

/-- The producers push, queue by queue, the elements of `a` (possibly unaligned). -/
def CheetahBuffer.arrive (b a : CheetahBuffer J C) : CheetahBuffer J C :=
  { timestamp_q := b.timestamp_q ++ a.timestamp_q
    imu_q := b.imu_q ++ a.imu_q
    joint_state_q := b.joint_state_q ++ a.joint_state_q
    contact_q := b.contact_q ++ a.contact_q }

/-- The packet a tuple becomes once assembled. -/
def Reading.toPacket (r : Reading J C) : CheetahPacket J C :=
  { time := r.timestamp, imu := some r.imu, joint_state := some r.joint_state,
    contact := some r.contact }

/-- What a call of `updateNextPacket` hands over: the packet held afterwards when the call
returned true, nothing otherwise. -/
def Outcome.delivered (r : Outcome J C E S) : Option (CheetahPacket J C) :=
  if r.hasUpdated then some r.sys.cheetah_packet_ else none

/-- The outcomes of `k` successive calls of `updateNextPacket` with no push in between. -/
def updateNextPacketTimes : Nat → CheetahSystem J C E S → List (Outcome J C E S)
  | 0, _ => []
  | k + 1, s => updateNextPacket s :: updateNextPacketTimes k (updateNextPacket s).sys

/-- All four queues hold an element: the guard of `updateNextPacket` (lines 93-96). -/
def packetAvailable (s : CheetahSystem J C E S) : Prop :=
  s.cheetah_buffer_.timestamp_q ≠ [] ∧ s.cheetah_buffer_.imu_q ≠ [] ∧
    s.cheetah_buffer_.joint_state_q ≠ [] ∧ s.cheetah_buffer_.contact_q ≠ []

instance (s : CheetahSystem J C E S) : Decidable (packetAvailable s) :=
  decidable_of_iff
    ((!s.cheetah_buffer_.timestamp_q.isEmpty && !s.cheetah_buffer_.imu_q.isEmpty
      && !s.cheetah_buffer_.joint_state_q.isEmpty && !s.cheetah_buffer_.contact_q.isEmpty) = true)
    (by simp [packetAvailable, List.isEmpty_iff, and_assoc])

/-- The system as cycle `k` (counted from 0) of a run finds it: before each cycle the
producers push `arrivals k`, then `step` runs. -/
def cycleInput (P : Collaborators J C E S) (arrivals : Nat → CheetahBuffer J C) :
    Nat → CheetahSystem J C E S → CheetahSystem J C E S
  | 0, s => { s with cheetah_buffer_ := s.cheetah_buffer_.arrive (arrivals 0) }
  | k + 1, s =>
    let t := (step P (cycleInput P arrivals k s)).sys
    { t with cheetah_buffer_ := t.cheetah_buffer_.arrive (arrivals (k + 1)) }

/-- The outcome of cycle `k` of a run. -/
def cycle (P : Collaborators J C E S) (arrivals : Nat → CheetahBuffer J C) (k : Nat)
    (s : CheetahSystem J C E S) : Outcome J C E S :=
  step P (cycleInput P arrivals k s)

/-- Marks the calibration calls: `initBias`, `initState`, `enableFilter`. -/
def Event.isCalibration : Event J C S → Bool
  | Event.initBias _ => true
  | Event.initState _ _ _ => true
  | Event.enableFilter => true
  | _ => false

/-- Marks the calls of the Enabled branch: `setContacts`, `update`. -/
def Event.isEstimation : Event J C S → Bool
  | Event.setContacts _ => true
  | Event.update _ _ => true
  | _ => false

/-- The estimator's enabled flag is changed only by `enableFilter`, which sets it. -/
structure EnabledOnlyByEnableFilter (P : Collaborators J C E S) : Prop where
  enableFilter_sets : ∀ e, P.enabled (P.enableFilter e) = true
  initBias_keeps : ∀ p e, P.enabled (P.initBias p e) = P.enabled e
  initState_keeps : ∀ t p st e, P.enabled (P.initState t p st e).1 = P.enabled e
  setContacts_keeps : ∀ st e, P.enabled (P.setContacts st e).1 = P.enabled e
  update_keeps : ∀ p st e, P.enabled (P.update p st e).1 = P.enabled e

/-- What can happen to the system between two observations: a producer pushes on one queue,
the driver runs `step`, or the subscriber delivers a message to `timesyncCallback`. -/
inductive Action (J C : Type) where
  | pushTimestamp (t : ℚ)
  | pushImu (i : ImuMeasurement)
  | pushJointState (j : J)
  | pushContact (c : C)
  | step
  | timesync (imu_message : SensorImu)

/-- Performs one action; `none` is the fault of `timesyncCallback`. -/
def applyAction (P : Collaborators J C E S) (s : CheetahSystem J C E S) :
    Action J C → Option (Ended J C E S)
  | Action.pushTimestamp t =>
    some { threw := false, sys := { s with cheetah_buffer_ :=
      { s.cheetah_buffer_ with timestamp_q := s.cheetah_buffer_.timestamp_q ++ [t] } } }
  | Action.pushImu i =>
    some { threw := false, sys := { s with cheetah_buffer_ :=
      { s.cheetah_buffer_ with imu_q := s.cheetah_buffer_.imu_q ++ [i] } } }
  | Action.pushJointState j =>
    some { threw := false, sys := { s with cheetah_buffer_ :=
      { s.cheetah_buffer_ with joint_state_q := s.cheetah_buffer_.joint_state_q ++ [j] } } }
  | Action.pushContact c =>
    some { threw := false, sys := { s with cheetah_buffer_ :=
      { s.cheetah_buffer_ with contact_q := s.cheetah_buffer_.contact_q ++ [c] } } }
  | Action.step => some { threw := false, sys := (step P s).sys }
  | Action.timesync m => timesyncCallback P s m

/-- Performs the actions of a list, first to last. The run ends at a fault (`none`) and at an
exception (the system as the exception left it, `threw` set): nothing is performed after
either. -/
def runActions (P : Collaborators J C E S) :
    List (Action J C) → CheetahSystem J C E S → Option (Ended J C E S)
  | [], s => some { sys := s, threw := false }
  | a :: rest, s =>
    match applyAction P s a with
    | none => none
    | some r => if r.threw then some r else runActions P rest r.sys

/-- Two doubles are within 1e-4 of each other: both are finite and the absolute value of
their exact difference is at most 1/10000. -/
def Double.within : Double → Double → Prop
  | Double.fin x, Double.fin y => |x - y| ≤ 1 / 10000
  | _, _ => False

instance (a b : Double) : Decidable (Double.within a b) :=
  match a, b with
  | Double.fin x, Double.fin y => inferInstanceAs (Decidable (|x - y| ≤ 1 / 10000))
  | Double.nan, _ => isFalse (fun h => by cases h)
  | Double.posInf, _ => isFalse (fun h => by cases h)
  | Double.negInf, _ => isFalse (fun h => by cases h)
  | Double.fin _, Double.nan => isFalse (fun h => by cases h)
  | Double.fin _, Double.posInf => isFalse (fun h => by cases h)
  | Double.fin _, Double.negInf => isFalse (fun h => by cases h)

/-- The tolerance test in the words of the specification: the absolute difference is at most
1e-4 on each of x, y and z. -/
def withinTolerance (a b : Vector3) : Prop :=
  Double.within a.x b.x ∧ Double.within a.y b.y ∧ Double.within a.z b.z

instance (a b : Vector3) : Decidable (withinTolerance a b) := by
  unfold withinTolerance; infer_instance

/-- What the code relies on from the rounding of a difference: `epsilon` and `-epsilon` are
doubles, so a difference of absolute value at most `epsilon` is rounded to a finite double of
absolute value at most `epsilon`. Every IEEE rounding mode has this property. -/
structure RoundsWithinEpsilon (P : Collaborators J C E S) : Prop where
  keeps : ∀ q : ℚ, |q| ≤ 7378697629483821 / 2 ^ 66 →
    ∃ r : ℚ, P.round q = Double.fin r ∧ |r| ≤ 7378697629483821 / 2 ^ 66

/-- The other side of the rounding: the next double above `epsilon` is
7378697629483822 / 2^66, so a difference of absolute value at least that is rounded (to a
finite double or an infinity) above `epsilon` in absolute value. Every IEEE rounding mode has
this property. -/
structure RoundsAboveEpsilon (P : Collaborators J C E S) : Prop where
  trips : ∀ q : ℚ, 7378697629483822 / 2 ^ 66 ≤ |q| →
    Double.gt (Double.fabs (P.round q)) epsilon = true

/-- Two doubles are apart: both are finite and the absolute value of their exact difference
is at least the next double above `epsilon`. -/
def Double.apart : Double → Double → Prop
  | Double.fin x, Double.fin y => 7378697629483822 / 2 ^ 66 ≤ |x - y|
  | _, _ => False

/-- The number of `step` actions of a run, up to its end, that assembled a packet. -/
def successfulSteps (P : Collaborators J C E S) :
    List (Action J C) → CheetahSystem J C E S → Nat
  | [], _ => 0
  | a :: rest, s =>
    match applyAction P s a with
    | none => 0
    | some r =>
      (match a with
        | Action.step => if (updateNextPacket s).hasUpdated then 1 else 0
        | _ => 0) + (if r.threw then 0 else successfulSteps P rest r.sys)

/-- The packet assembled by the last successful `step` of a run, starting from `acc` (what
was assembled before the run, if anything). -/
def lastAssembled (P : Collaborators J C E S) :
    List (Action J C) → CheetahSystem J C E S → Option (CheetahPacket J C) →
      Option (CheetahPacket J C)
  | [], _, acc => acc
  | a :: rest, s, acc =>
    match applyAction P s a with
    | none => acc
    | some r =>
      if r.threw then acc
      else
        lastAssembled P rest r.sys
          (match a with
            | Action.step =>
              if (updateNextPacket s).hasUpdated then (updateNextPacket s).delivered else acc
            | _ => acc)

/-- The system after `k` successive calls of `updateNextPacket` with no push in between. -/
def updateNextPacketAfter : Nat → CheetahSystem J C E S → CheetahSystem J C E S
  | 0, s => s
  | k + 1, s => updateNextPacketAfter k (updateNextPacket s).sys

/-- The tuples obtained by pairing the four queues position by position, as far as the
shortest queue goes. -/
def zipReadings : List ℚ → List ImuMeasurement → List J → List C → List (Reading J C)
  | t :: ts, i :: is, j :: js, c :: cs =>
    { timestamp := t, imu := i, joint_state := j, contact := c } :: zipReadings ts is js cs
  | _, _, _, _ => []

/-- Marks the mutex acquisition. -/
def Event.isLock : Event J C S → Bool
  | Event.lock => true
  | _ => false

/-- Marks the mutex release. -/
def Event.isUnlock : Event J C S → Bool
  | Event.unlock => true
  | _ => false

/-- Marks the publisher calls: `posePublish`, `poseCallback`, `statePublish`. -/
def Event.isPublisher : Event J C S → Bool
  | Event.posePublish _ => true
  | Event.poseCallback _ => true
  | Event.statePublish _ => true
  | _ => false

/-- Marks the base time stamping. -/
def Event.isSetBasetime : Event J C S → Bool
  | Event.setBasetime _ => true
  | _ => false

/-- Replays a log against the mutex, `held` telling whether it is held: the mutex is acquired
only while free and released only while held, every other call (robot state, estimator,
publisher) is made while it is free, and it is free at the end. -/
def lockScopeOk : Bool → List (Event J C S) → Bool
  | held, [] => !held
  | held, Event.lock :: rest => !held && lockScopeOk true rest
  | held, Event.unlock :: rest => held && lockScopeOk false rest
  | held, _ :: rest => !held && lockScopeOk held rest

/-- The copy of a message that `timesyncCallback` stores (lines 119-121). -/
def storedCopy (imu_message : SensorImu) : SensorImu :=
  { stamp := imu_message.stamp
    angular_velocity := imu_message.angular_velocity
    linear_acceleration := ⟨0, 0, 0⟩ }

/-- The held packet's IMU reading is assigned as soon as an update is counted. -/
def packetAssigned (s : CheetahSystem J C E S) : Prop :=
  1 ≤ s.updated_ → ∃ imu, s.cheetah_packet_.imu = some imu

/-! ## A sample instantiation -/

/-- A sample estimator and robot state: the estimator counts `initBias` calls and reports
calibration complete from `n` calls on; the robot state is the pair (time, base time). The
sample values of angular velocity are 0, 1, 1/32768 and not-a-number, whose differences are
doubles, so the sample rounding leaves a difference as it is. The sample times and stamps are
whole seconds, for which `stamp - ros::Duration(t)` is the exact difference, and throws when
that is negative or beyond 32 bits of seconds. -/
def sampleCollaborators (n : Nat) : Collaborators Nat Bool (Nat × Bool) (ℚ × ℚ) :=
  { round := Double.fin
    timeMinusDuration := fun stamp t =>
      if 0 ≤ stamp - t ∧ stamp - t < 4294967296 then some (stamp - t) else none
    set := fun p st => (p.time, st.2)
    getTime := fun st => st.1
    setBasetime := fun t st => (st.1, t)
    enabled := fun e => e.2
    biasInitialized := fun e => decide (n ≤ e.1)
    setContacts := fun st e => (e, st)
    update := fun _ st e => (e, st)
    initState := fun t _ st e => (e, (t, st.2))
    enableFilter := fun e => (e.1, true)
    initBias := fun _ e => (e.1 + 1, e.2) }

/-- A sample producer: before cycle `k` one aligned tuple arrives, stamped `k + 1`. -/
def sampleArrivals (k : Nat) : CheetahBuffer Nat Bool :=
  { timestamp_q := [(k : ℚ) + 1], imu_q := [⟨⟨0, 0, 0⟩⟩], joint_state_q := [k],
    contact_q := [true] }

/-- A sample system just constructed: empty queues, estimator not enabled, publishers off. -/
def sampleSystem : CheetahSystem Nat Bool (Nat × Bool) (ℚ × ℚ) :=
  CheetahSystem.init CheetahBuffer.empty (0, 0) (0, false) false false

/-- A sample system past warm-up and not matched: 15 updates counted, the held packet has
angular velocity (0, 0, 0), the robot state has time 3, and `buffer` is the sample buffer. -/
def sampleSyncSystem (buffer : List SensorImu) : CheetahSystem Nat Bool (Nat × Bool) (ℚ × ℚ) :=
  { cheetah_buffer_ := CheetahBuffer.empty
    cheetah_packet_ :=
      { time := 3, imu := some ⟨⟨0, 0, 0⟩⟩, joint_state := some 0, contact := some true }
    state_ := (3, 0)
    estimator_ := (3, true)
    enable_pose_publisher_ := false
    enable_state_publisher_ := false
    matched_ := false
    updated_ := 15
    imu_buffer_ := buffer
    timestamp_ := 0 }

/-- A sample message stamped `t` with angular velocity (w, w, w). -/
def sampleMessage (t w : ℚ) : SensorImu :=
  { stamp := t, angular_velocity := ⟨Double.fin w, Double.fin w, Double.fin w⟩
    linear_acceleration := ⟨0, 0, 0⟩ }

/-- A sample message stamped `t` whose angular velocity is not-a-number on every axis. -/
def sampleNaNMessage (t : ℚ) : SensorImu :=
  { stamp := t, angular_velocity := ⟨Double.nan, Double.nan, Double.nan⟩
    linear_acceleration := ⟨0, 0, 0⟩ }

/-- A sample system with the estimator enabled, nothing matched (`timestamp_` still 0), the
publishers switched as given, and one tuple stamped 4 waiting in the queues. -/
def sampleEnabledSystem (pose state : Bool) : CheetahSystem Nat Bool (Nat × Bool) (ℚ × ℚ) :=
  { sampleSyncSystem [] with
    cheetah_buffer_ := sampleArrivals 3
    enable_pose_publisher_ := pose
    enable_state_publisher_ := state }

/-- A sample run: `n` times a full tuple is pushed and `step` runs, with a callback after
every cycle. -/
def sampleRun : Nat → List (Action Nat Bool)
  | 0 => []
  | n + 1 =>
    sampleRun n ++
      [Action.pushTimestamp ((n : ℚ) + 1), Action.pushImu ⟨⟨0, 0, 0⟩⟩, Action.pushJointState n,
        Action.pushContact true, Action.step, Action.timesync (sampleMessage 10 0)]

/-- A sample run without callbacks: `n` times a full tuple is pushed and `step` runs. -/
def sampleQuietRun : Nat → List (Action Nat Bool)
  | 0 => []
  | n + 1 =>
    sampleQuietRun n ++
      [Action.pushTimestamp ((n : ℚ) + 1), Action.pushImu ⟨⟨0, 0, 0⟩⟩, Action.pushJointState n,
        Action.pushContact true, Action.step]

end Code

section Assembly

variable {J C E S : Type}

/-! ## Packet assembly -/

/-- The starved call: with an empty queue, nothing is touched. -/
theorem updateNextPacket_starved (s : CheetahSystem J C E S) (h : ¬ packetAvailable s) :
    updateNextPacket s = { hasUpdated := false, sys := s, log := [Event.lock, Event.unlock] } := by
  obtain ⟨⟨tq, iq, jq, cq⟩, p, st, e, pp, sp, m, u, ib, ts⟩ := s
  cases tq <;> cases iq <;> cases jq <;> cases cq <;>
    simp [packetAvailable, updateNextPacket] at h ⊢

/-- The successful call, on queues written with their front elements. -/
theorem updateNextPacket_cons (s : CheetahSystem J C E S) (t : ℚ) (ts : List ℚ)
    (i : ImuMeasurement) (is : List ImuMeasurement) (j : J) (js : List J) (c : C) (cs : List C)
    (h : s.cheetah_buffer_ = ⟨t :: ts, i :: is, j :: js, c :: cs⟩) :
    updateNextPacket s =
      { hasUpdated := true
        sys := { s with
          cheetah_packet_ := ⟨t, some i, some j, some c⟩
          cheetah_buffer_ := ⟨ts, is, js, cs⟩ }
        log := [Event.lock, Event.unlock] } := by
  obtain ⟨b, p, st, e, pp, sp, m, u, ib, tsp⟩ := s
  simp only at h
  subst h
  simp [updateNextPacket, CheetahPacket.setTime]

/-- Claim C1: `updateNextPacket` returns true exactly when all four queues are non-empty; on
true each queue is one element shorter, on false each queue keeps its length. -/
theorem updateNextPacket_iff_all_nonempty (s : CheetahSystem J C E S) :
    ((updateNextPacket s).hasUpdated = true ↔
      (s.cheetah_buffer_.timestamp_q ≠ [] ∧ s.cheetah_buffer_.imu_q ≠ [] ∧
        s.cheetah_buffer_.joint_state_q ≠ [] ∧ s.cheetah_buffer_.contact_q ≠ [])) ∧
    ((updateNextPacket s).hasUpdated = true →
      (updateNextPacket s).sys.cheetah_buffer_.timestamp_q.length + 1
          = s.cheetah_buffer_.timestamp_q.length ∧
        (updateNextPacket s).sys.cheetah_buffer_.imu_q.length + 1
          = s.cheetah_buffer_.imu_q.length ∧
        (updateNextPacket s).sys.cheetah_buffer_.joint_state_q.length + 1
          = s.cheetah_buffer_.joint_state_q.length ∧
        (updateNextPacket s).sys.cheetah_buffer_.contact_q.length + 1
          = s.cheetah_buffer_.contact_q.length) ∧
    ((updateNextPacket s).hasUpdated = false →
      (updateNextPacket s).sys.cheetah_buffer_.timestamp_q.length
          = s.cheetah_buffer_.timestamp_q.length ∧
        (updateNextPacket s).sys.cheetah_buffer_.imu_q.length
          = s.cheetah_buffer_.imu_q.length ∧
        (updateNextPacket s).sys.cheetah_buffer_.joint_state_q.length
          = s.cheetah_buffer_.joint_state_q.length ∧
        (updateNextPacket s).sys.cheetah_buffer_.contact_q.length
          = s.cheetah_buffer_.contact_q.length) := by
  by_cases h : packetAvailable s
  · obtain ⟨⟨tq, iq, jq, cq⟩, p, st, e, pp, sp, m, u, ib, ts⟩ := s
    obtain ⟨h1, h2, h3, h4⟩ := h
    simp only at h1 h2 h3 h4
    obtain ⟨t, tq, rfl⟩ := List.exists_cons_of_ne_nil h1
    obtain ⟨i, iq, rfl⟩ := List.exists_cons_of_ne_nil h2
    obtain ⟨j, jq, rfl⟩ := List.exists_cons_of_ne_nil h3
    obtain ⟨c, cq, rfl⟩ := List.exists_cons_of_ne_nil h4
    rw [updateNextPacket_cons _ t tq i iq j jq c cq rfl]
    simp
  · rw [updateNextPacket_starved s h]
    simpa [packetAvailable] using h

/-- Claim C2: with all four queues non-empty, `updateNextPacket` returns true, the packet held
afterwards is made of the four front elements, each queue is its former content without the
front element, and no other member changes. -/
theorem updateNextPacket_takes_fronts (s : CheetahSystem J C E S) (t : ℚ) (ts : List ℚ)
    (i : ImuMeasurement) (is : List ImuMeasurement) (j : J) (js : List J) (c : C) (cs : List C)
    (ht : s.cheetah_buffer_.timestamp_q = t :: ts) (hi : s.cheetah_buffer_.imu_q = i :: is)
    (hj : s.cheetah_buffer_.joint_state_q = j :: js)
    (hc : s.cheetah_buffer_.contact_q = c :: cs) :
    (updateNextPacket s).hasUpdated = true ∧
    (updateNextPacket s).sys.cheetah_packet_ =
      { time := t, imu := some i, joint_state := some j, contact := some c } ∧
    (updateNextPacket s).sys.cheetah_buffer_ =
      { timestamp_q := ts, imu_q := is, joint_state_q := js, contact_q := cs } ∧
    (updateNextPacket s).sys =
      { s with
        cheetah_packet_ := (updateNextPacket s).sys.cheetah_packet_
        cheetah_buffer_ := (updateNextPacket s).sys.cheetah_buffer_ } := by
  have h : s.cheetah_buffer_ = ⟨t :: ts, i :: is, j :: js, c :: cs⟩ := by
    obtain ⟨⟨tq, iq, jq, cq⟩, _⟩ := s
    simp only at ht hi hj hc
    subst ht hi hj hc
    rfl
  rw [updateNextPacket_cons s t ts i is j js c cs h]
  exact ⟨rfl, rfl, rfl, rfl⟩

/-- The scenario of claim C2: one tuple (1.0, {0,0,0}, J, C) in the queues gives that packet
and four empty queues. -/
theorem updateNextPacket_takes_fronts_witness :
    ((CheetahSystem.init (⟨[1], [⟨⟨0, 0, 0⟩⟩], [7], [true]⟩ : CheetahBuffer Nat Bool)
        () () false false).cheetah_buffer_.timestamp_q = [1]) ∧
    (updateNextPacket (CheetahSystem.init
        (⟨[1], [⟨⟨0, 0, 0⟩⟩], [7], [true]⟩ : CheetahBuffer Nat Bool)
        () () false false)).sys.cheetah_packet_ =
      { time := 1, imu := some ⟨⟨0, 0, 0⟩⟩, joint_state := some 7, contact := some true } ∧
    (updateNextPacket (CheetahSystem.init
        (⟨[1], [⟨⟨0, 0, 0⟩⟩], [7], [true]⟩ : CheetahBuffer Nat Bool)
        () () false false)).sys.cheetah_buffer_ =
      { timestamp_q := [], imu_q := [], joint_state_q := [], contact_q := [] } :=
  ⟨rfl,
    (updateNextPacket_takes_fronts (CheetahSystem.init
        (⟨[1], [⟨⟨0, 0, 0⟩⟩], [7], [true]⟩ : CheetahBuffer Nat Bool) () () false false)
      1 [] ⟨⟨0, 0, 0⟩⟩ [] 7 [] true [] rfl rfl rfl rfl).2.1,
    (updateNextPacket_takes_fronts (CheetahSystem.init
        (⟨[1], [⟨⟨0, 0, 0⟩⟩], [7], [true]⟩ : CheetahBuffer Nat Bool) () () false false)
      1 [] ⟨⟨0, 0, 0⟩⟩ [] 7 [] true [] rfl rfl rfl rfl).2.2.1⟩

/-- Repeated starved calls: every outcome is the starved one. -/
theorem updateNextPacketTimes_starved (s : CheetahSystem J C E S) (h : ¬ packetAvailable s)
    (k : Nat) :
    updateNextPacketTimes k s =
      List.replicate k { hasUpdated := false, sys := s, log := [Event.lock, Event.unlock] } := by
  induction k with
  | zero => rfl
  | succ k ih =>
    simp only [updateNextPacketTimes, List.replicate_succ]
    rw [updateNextPacket_starved s h]
    simp only [List.cons.injEq, true_and]
    exact ih

/-- Claim C3: when at least one queue is empty, `updateNextPacket` returns false and the whole
system (the four queues and the held packet included) is as before; any number of repeated
calls all return false and end in the same system. -/
theorem updateNextPacket_starvation_idempotent (s : CheetahSystem J C E S)
    (h : s.cheetah_buffer_.timestamp_q = [] ∨ s.cheetah_buffer_.imu_q = [] ∨
      s.cheetah_buffer_.joint_state_q = [] ∨ s.cheetah_buffer_.contact_q = []) :
    (updateNextPacket s).hasUpdated = false ∧
    (updateNextPacket s).sys = s ∧
    ∀ k : Nat,
      (∀ r ∈ updateNextPacketTimes k s, r.hasUpdated = false ∧ r.sys = s) ∧
      (updateNextPacketTimes k s).length = k := by
  have hs : ¬ packetAvailable s := by
    unfold packetAvailable
    tauto
  refine ⟨by rw [updateNextPacket_starved s hs], by rw [updateNextPacket_starved s hs], ?_⟩
  intro k
  rw [updateNextPacketTimes_starved s hs k]
  refine ⟨?_, List.length_replicate _ _⟩
  intro r hr
  rw [List.eq_of_mem_replicate hr]
  exact ⟨rfl, rfl⟩

/-- A starved system for claim C3: the contact queue is empty, three calls change nothing. -/
theorem updateNextPacket_starvation_idempotent_witness :
    (updateNextPacket (CheetahSystem.init
        (⟨[1], [⟨⟨0, 0, 0⟩⟩], [7], []⟩ : CheetahBuffer Nat Bool)
        () () false false)).hasUpdated = false ∧
    (updateNextPacketTimes 3 (CheetahSystem.init
        (⟨[1], [⟨⟨0, 0, 0⟩⟩], [7], []⟩ : CheetahBuffer Nat Bool)
        () () false false)).length = 3 :=
  ⟨(updateNextPacket_starvation_idempotent (CheetahSystem.init
        (⟨[1], [⟨⟨0, 0, 0⟩⟩], [7], []⟩ : CheetahBuffer Nat Bool) () () false false)
      (Or.inr (Or.inr (Or.inr rfl)))).1,
    ((updateNextPacket_starvation_idempotent (CheetahSystem.init
        (⟨[1], [⟨⟨0, 0, 0⟩⟩], [7], []⟩ : CheetahBuffer Nat Bool) () () false false)
      (Or.inr (Or.inr (Or.inr rfl)))).2.2 3).2⟩

/-- Pushing a list of tuples appends, queue by queue, its components in order. -/
theorem pushAll_eq (b : CheetahBuffer J C) (l : List (Reading J C)) :
    b.pushAll l =
      { timestamp_q := b.timestamp_q ++ l.map Reading.timestamp
        imu_q := b.imu_q ++ l.map Reading.imu
        joint_state_q := b.joint_state_q ++ l.map Reading.joint_state
        contact_q := b.contact_q ++ l.map Reading.contact } := by
  induction l generalizing b with
  | nil => simp [CheetahBuffer.pushAll]
  | cons r l ih =>
    have h : b.pushAll (r :: l) = (b.push r).pushAll l := rfl
    rw [h, ih]
    simp [CheetahBuffer.push]

/-- Draining queues that hold exactly the components of `l`: one packet per tuple, in order,
then nothing. -/
theorem updateNextPacketTimes_drain (l : List (Reading J C)) (m : Nat)
    (s : CheetahSystem J C E S)
    (h : s.cheetah_buffer_ =
      { timestamp_q := l.map Reading.timestamp, imu_q := l.map Reading.imu
        joint_state_q := l.map Reading.joint_state, contact_q := l.map Reading.contact }) :
    (updateNextPacketTimes (l.length + m) s).map Outcome.delivered =
      l.map (fun r => some r.toPacket) ++ List.replicate m none := by
  induction l generalizing s with
  | nil =>
    have hs : ¬ packetAvailable s := by
      simp [packetAvailable, h]
    simp only [List.length_nil, Nat.zero_add, List.map_nil, List.nil_append]
    rw [updateNextPacketTimes_starved s hs m]
    simp [Outcome.delivered]
  | cons r l ih =>
    have hk : (r :: l).length + m = (l.length + m) + 1 := by
      simp only [List.length_cons]; omega
    rw [hk]
    simp only [updateNextPacketTimes, List.map_cons, List.cons_append]
    rw [updateNextPacket_cons s r.timestamp (l.map Reading.timestamp) r.imu
      (l.map Reading.imu) r.joint_state (l.map Reading.joint_state) r.contact
      (l.map Reading.contact) (by simpa using h)]
    simp only [List.cons.injEq]
    refine ⟨by simp [Outcome.delivered, Reading.toPacket], ?_⟩
    exact ih _ rfl

/-- Claim C4: after the tuples of `l` are pushed component-wise onto four empty queues, the
first `l.length` calls of `updateNextPacket` hand over the packets of `l` one by one in the
order pushed, and each of the `m` calls after them hands over nothing. -/
theorem updateNextPacket_exactly_once_in_order (s0 : CheetahSystem J C E S)
    (l : List (Reading J C)) (m : Nat) :
    (updateNextPacketTimes (l.length + m)
        { s0 with cheetah_buffer_ := CheetahBuffer.empty.pushAll l }).map Outcome.delivered =
      l.map (fun r => some r.toPacket) ++ List.replicate m none ∧
    (updateNextPacketTimes (l.length + m)
        { s0 with cheetah_buffer_ := CheetahBuffer.empty.pushAll l }).map Outcome.hasUpdated =
      List.replicate l.length true ++ List.replicate m false := by
  have hd : (updateNextPacketTimes (l.length + m)
      { s0 with cheetah_buffer_ := CheetahBuffer.empty.pushAll l }).map Outcome.delivered =
      l.map (fun r => some r.toPacket) ++ List.replicate m none := by
    apply updateNextPacketTimes_drain
    rw [pushAll_eq]
    simp [CheetahBuffer.empty]
  refine ⟨hd, ?_⟩
  have hu : ∀ r : Outcome J C E S, r.hasUpdated = (r.delivered).isSome := by
    intro r
    unfold Outcome.delivered
    cases r.hasUpdated <;> rfl
  have hmap : (updateNextPacketTimes (l.length + m)
      { s0 with cheetah_buffer_ := CheetahBuffer.empty.pushAll l }).map Outcome.hasUpdated =
      ((updateNextPacketTimes (l.length + m)
        { s0 with cheetah_buffer_ := CheetahBuffer.empty.pushAll l }).map
          Outcome.delivered).map Option.isSome := by
    rw [List.map_map]
    exact List.map_congr_left (fun r _ => hu r)
  rw [hmap, hd]
  simp [List.map_replicate, List.map_const, Function.comp_def]

end Assembly

section Driver

variable {J C E S : Type}

/-! ## The driver state machine -/

/-- With all four queues non-empty, the queues can be written with their front elements. -/
theorem packetAvailable_cons (s : CheetahSystem J C E S) (h : packetAvailable s) :
    ∃ t ts i is j js c cs, s.cheetah_buffer_ = ⟨t :: ts, i :: is, j :: js, c :: cs⟩ := by
  obtain ⟨⟨tq, iq, jq, cq⟩, p, st, e, pp, sp, m, u, ib, ts⟩ := s
  obtain ⟨h1, h2, h3, h4⟩ := h
  simp only at h1 h2 h3 h4
  obtain ⟨t, tq, rfl⟩ := List.exists_cons_of_ne_nil h1
  obtain ⟨i, iq, rfl⟩ := List.exists_cons_of_ne_nil h2
  obtain ⟨j, jq, rfl⟩ := List.exists_cons_of_ne_nil h3
  obtain ⟨c, cq, rfl⟩ := List.exists_cons_of_ne_nil h4
  exact ⟨t, tq, i, iq, j, jq, c, cq, rfl⟩

/-- The guard of `updateNextPacket` as a proposition. -/
theorem updateNextPacket_hasUpdated_iff (s : CheetahSystem J C E S) :
    (updateNextPacket s).hasUpdated = true ↔ packetAvailable s := by
  by_cases h : packetAvailable s
  · obtain ⟨t, ts, i, is, j, js, c, cs, hb⟩ := packetAvailable_cons s h
    rw [updateNextPacket_cons s t ts i is j js c cs hb]
    simp [h]
  · rw [updateNextPacket_starved s h]
    simpa using h

/-- A cycle without a packet: `step` does what the starved `updateNextPacket` does. -/
theorem step_starved (P : Collaborators J C E S) (s : CheetahSystem J C E S)
    (h : ¬ packetAvailable s) :
    step P s = { hasUpdated := false, sys := s, log := [Event.lock, Event.unlock] } := by
  simp [step, updateNextPacket_starved s h]

/-- A cycle of the calibration phase: the packet goes to `initBias`. -/
theorem step_calibrating (P : Collaborators J C E S) (s : CheetahSystem J C E S)
    (h : packetAvailable s) (hen : P.enabled s.estimator_ = false)
    (hb : P.biasInitialized s.estimator_ = false) :
    step P s =
      { hasUpdated := true
        sys := { (updateNextPacket s).sys with
          updated_ := s.updated_ + 1
          state_ := P.set (updateNextPacket s).sys.cheetah_packet_ s.state_
          estimator_ := P.initBias (updateNextPacket s).sys.cheetah_packet_ s.estimator_ }
        log := [Event.lock, Event.unlock,
          Event.stateSet (updateNextPacket s).sys.cheetah_packet_,
          Event.enabledQuery false, Event.biasInitializedQuery false,
          Event.initBias (updateNextPacket s).sys.cheetah_packet_] } := by
  obtain ⟨t, ts, i, is, j, js, c, cs, hq⟩ := packetAvailable_cons s h
  simp [step, updateNextPacket_cons s t ts i is j js c cs hq, hen, hb]

/-- The cycle that ends calibration: `initState` on this cycle's packet and its time, then
`enableFilter`. -/
theorem step_readyToInit (P : Collaborators J C E S) (s : CheetahSystem J C E S)
    (h : packetAvailable s) (hen : P.enabled s.estimator_ = false)
    (hb : P.biasInitialized s.estimator_ = true) :
    step P s =
      { hasUpdated := true
        sys := { (updateNextPacket s).sys with
          updated_ := s.updated_ + 1
          state_ := (P.initState (updateNextPacket s).sys.cheetah_packet_.getTime
            (updateNextPacket s).sys.cheetah_packet_
            (P.set (updateNextPacket s).sys.cheetah_packet_ s.state_) s.estimator_).2
          estimator_ := P.enableFilter
            (P.initState (updateNextPacket s).sys.cheetah_packet_.getTime
              (updateNextPacket s).sys.cheetah_packet_
              (P.set (updateNextPacket s).sys.cheetah_packet_ s.state_) s.estimator_).1 }
        log := [Event.lock, Event.unlock,
          Event.stateSet (updateNextPacket s).sys.cheetah_packet_,
          Event.enabledQuery false, Event.biasInitializedQuery true,
          Event.initState (updateNextPacket s).sys.cheetah_packet_.getTime
            (updateNextPacket s).sys.cheetah_packet_
            (P.set (updateNextPacket s).sys.cheetah_packet_ s.state_),
          Event.enableFilter] } := by
  obtain ⟨t, ts, i, is, j, js, c, cs, hq⟩ := packetAvailable_cons s h
  simp [step, updateNextPacket_cons s t ts i is j js c cs hq, hen, hb]

/-- A cycle of the Enabled phase: `setContacts`, `update`, `setBasetime`, then the publishers
that are switched on. -/
theorem step_enabled (P : Collaborators J C E S) (s : CheetahSystem J C E S)
    (h : packetAvailable s) (hen : P.enabled s.estimator_ = true) :
    (step P s).hasUpdated = true ∧
    (step P s).sys =
      { (updateNextPacket s).sys with
        updated_ := s.updated_ + 1
        state_ := P.setBasetime s.timestamp_
          (P.update (updateNextPacket s).sys.cheetah_packet_
            (P.setContacts (P.set (updateNextPacket s).sys.cheetah_packet_ s.state_)
              s.estimator_).2
            (P.setContacts (P.set (updateNextPacket s).sys.cheetah_packet_ s.state_)
              s.estimator_).1).2
        estimator_ :=
          (P.update (updateNextPacket s).sys.cheetah_packet_
            (P.setContacts (P.set (updateNextPacket s).sys.cheetah_packet_ s.state_)
              s.estimator_).2
            (P.setContacts (P.set (updateNextPacket s).sys.cheetah_packet_ s.state_)
              s.estimator_).1).1 } ∧
    (step P s).log =
      [Event.lock, Event.unlock, Event.stateSet (updateNextPacket s).sys.cheetah_packet_,
        Event.enabledQuery true,
        Event.setContacts (P.set (updateNextPacket s).sys.cheetah_packet_ s.state_),
        Event.update (updateNextPacket s).sys.cheetah_packet_
          (P.setContacts (P.set (updateNextPacket s).sys.cheetah_packet_ s.state_)
            s.estimator_).2,
        Event.setBasetime s.timestamp_] ++
      (if s.enable_pose_publisher_ then
        [Event.posePublish (step P s).sys.state_, Event.poseCallback (step P s).sys.state_]
        else []) ++
      (if s.enable_state_publisher_ then [Event.statePublish (step P s).sys.state_] else []) := by
  obtain ⟨t, ts, i, is, j, js, c, cs, hq⟩ := packetAvailable_cons s h
  simp only [step, updateNextPacket_cons s t ts i is j js c cs hq, hen, if_true]
  refine ⟨trivial, trivial, ?_⟩
  cases s.enable_pose_publisher_ <;> cases s.enable_state_publisher_ <;> simp

/-- The estimator a cycle starts from is the one the previous cycle left. -/
theorem cycleInput_succ_estimator (P : Collaborators J C E S)
    (arrivals : Nat → CheetahBuffer J C) (k : Nat) (s : CheetahSystem J C E S) :
    (cycleInput P arrivals (k + 1) s).estimator_ = (cycle P arrivals k s).sys.estimator_ := rfl

/-- The first cycle starts from the initial estimator. -/
theorem cycleInput_zero_estimator (P : Collaborators J C E S)
    (arrivals : Nat → CheetahBuffer J C) (s : CheetahSystem J C E S) :
    (cycleInput P arrivals 0 s).estimator_ = s.estimator_ := rfl

/-- While the estimator is enabled, a cycle makes no calibration call and leaves it enabled. -/
theorem step_of_enabled (P : Collaborators J C E S) (hP : EnabledOnlyByEnableFilter P)
    (s : CheetahSystem J C E S) (hen : P.enabled s.estimator_ = true) :
    (step P s).log.filter Event.isCalibration = [] ∧
      P.enabled (step P s).sys.estimator_ = true := by
  by_cases h : packetAvailable s
  · obtain ⟨-, hs, hl⟩ := step_enabled P s h hen
    constructor
    · rw [hl]
      cases s.enable_pose_publisher_ <;> cases s.enable_state_publisher_ <;>
        simp [Event.isCalibration]
    · rw [hs]
      simp only
      rw [hP.update_keeps, hP.setContacts_keeps]
      exact hen
  · rw [step_starved P s h]
    exact ⟨by simp [Event.isCalibration], hen⟩

/-- From a cycle that starts enabled on, every cycle of a run starts enabled. -/
theorem cycleInput_enabled_of_le (P : Collaborators J C E S) (hP : EnabledOnlyByEnableFilter P)
    (arrivals : Nat → CheetahBuffer J C) (s0 : CheetahSystem J C E S) (k : Nat)
    (hk : P.enabled (cycleInput P arrivals k s0).estimator_ = true) (j : Nat) (hj : k ≤ j) :
    P.enabled (cycleInput P arrivals j s0).estimator_ = true := by
  induction j, hj using Nat.le_induction with
  | base => exact hk
  | succ j _ ih =>
    rw [cycleInput_succ_estimator]
    exact (step_of_enabled P hP _ ih).2

/-- A cycle whose log shows `biasInitialized()` answering true is the transition cycle. -/
theorem step_of_biasInitialized_true (P : Collaborators J C E S) (s : CheetahSystem J C E S)
    (h : Event.biasInitializedQuery true ∈ (step P s).log) :
    packetAvailable s ∧ P.enabled s.estimator_ = false ∧
      P.biasInitialized s.estimator_ = true := by
  by_cases ha : packetAvailable s
  · cases hen : P.enabled s.estimator_
    · cases hb : P.biasInitialized s.estimator_
      · rw [step_calibrating P s ha hen hb] at h
        simp at h
      · exact ⟨ha, rfl, rfl⟩
    · obtain ⟨-, -, hl⟩ := step_enabled P s ha hen
      rw [hl] at h
      cases hp : s.enable_pose_publisher_ <;> cases hq : s.enable_state_publisher_ <;>
        simp [hp, hq] at h
  · rw [step_starved P s ha] at h
    simp at h

/-- A cycle whose log shows `enableFilter` is the transition cycle. -/
theorem step_of_enableFilter (P : Collaborators J C E S) (s : CheetahSystem J C E S)
    (h : Event.enableFilter ∈ (step P s).log) :
    packetAvailable s ∧ P.enabled s.estimator_ = false ∧
      P.biasInitialized s.estimator_ = true := by
  by_cases ha : packetAvailable s
  · cases hen : P.enabled s.estimator_
    · cases hb : P.biasInitialized s.estimator_
      · rw [step_calibrating P s ha hen hb] at h
        simp at h
      · exact ⟨ha, rfl, rfl⟩
    · obtain ⟨-, -, hl⟩ := step_enabled P s ha hen
      rw [hl] at h
      cases hp : s.enable_pose_publisher_ <;> cases hq : s.enable_state_publisher_ <;>
        simp [hp, hq] at h
  · rw [step_starved P s ha] at h
    simp at h

/-- The packet held after a cycle is the one `updateNextPacket` left. -/
theorem step_packet (P : Collaborators J C E S) (s : CheetahSystem J C E S) :
    (step P s).sys.cheetah_packet_ = (updateNextPacket s).sys.cheetah_packet_ := by
  by_cases ha : packetAvailable s
  · cases hen : P.enabled s.estimator_
    · cases hb : P.biasInitialized s.estimator_
      · rw [step_calibrating P s ha hen hb]
      · rw [step_readyToInit P s ha hen hb]
    · rw [(step_enabled P s ha hen).2.1]
  · rw [step_starved P s ha, updateNextPacket_starved s ha]

/-- Claim C5: in a run where the estimator starts not enabled, a packet is available on each
of the first `n + 1` cycles and `biasInitialized()` answers false on the first `n` cycles and
true on the next one, each of the first `n` cycles makes exactly one calibration call,
`initBias` on that cycle's packet; cycle `n + 1` makes exactly `initState` (on that cycle's
packet, its time, and the robot state just set from it) followed by `enableFilter`; and no
later cycle makes a calibration call. Cycles are counted from 0 here. -/
theorem step_calibration_sequencing (P : Collaborators J C E S)
    (hP : EnabledOnlyByEnableFilter P) (arrivals : Nat → CheetahBuffer J C)
    (s0 : CheetahSystem J C E S) (n : Nat)
    (h0 : P.enabled s0.estimator_ = false)
    (hpkt : ∀ i, i ≤ n → packetAvailable (cycleInput P arrivals i s0))
    (hbias : ∀ i, i ≤ n →
      P.biasInitialized (cycleInput P arrivals i s0).estimator_ = decide (i = n)) :
    (∀ i, i < n →
      (cycle P arrivals i s0).log.filter Event.isCalibration =
        [Event.initBias (cycle P arrivals i s0).sys.cheetah_packet_]) ∧
    (cycle P arrivals n s0).log.filter Event.isCalibration =
      [Event.initState (cycle P arrivals n s0).sys.cheetah_packet_.getTime
          (cycle P arrivals n s0).sys.cheetah_packet_
          (P.set (cycle P arrivals n s0).sys.cheetah_packet_
            (cycleInput P arrivals n s0).state_),
        Event.enableFilter] ∧
    (∀ i, n < i → (cycle P arrivals i s0).log.filter Event.isCalibration = []) ∧
    (∀ i, i ≤ n →
      (cycle P arrivals i s0).sys.cheetah_packet_ =
        (updateNextPacket (cycleInput P arrivals i s0)).sys.cheetah_packet_) := by
  have hdis : ∀ i, i ≤ n → P.enabled (cycleInput P arrivals i s0).estimator_ = false := by
    intro i
    induction i with
    | zero => intro _; exact h0
    | succ i ih =>
      intro hi
      have hb := hbias i (by omega)
      have hne : i ≠ n := by omega
      simp only [hne, decide_False] at hb
      rw [cycleInput_succ_estimator]
      unfold cycle
      rw [step_calibrating P _ (hpkt i (by omega)) (ih (by omega)) hb]
      simp only
      rw [hP.initBias_keeps]
      exact ih (by omega)
  have hbn := hbias n le_rfl
  simp only [decide_True] at hbn
  have hen : P.enabled (cycleInput P arrivals (n + 1) s0).estimator_ = true := by
    rw [cycleInput_succ_estimator]
    unfold cycle
    rw [step_readyToInit P _ (hpkt n le_rfl) (hdis n le_rfl) hbn]
    exact hP.enableFilter_sets _
  refine ⟨?_, ?_, ?_, ?_⟩
  · intro i hi
    have hb := hbias i (by omega)
    have hne : i ≠ n := by omega
    simp only [hne, decide_False] at hb
    unfold cycle
    rw [step_calibrating P _ (hpkt i (by omega)) (hdis i (by omega)) hb]
    simp [Event.isCalibration]
  · unfold cycle
    rw [step_readyToInit P _ (hpkt n le_rfl) (hdis n le_rfl) hbn]
    simp [Event.isCalibration]
  · intro i hi
    exact (step_of_enabled P hP _
      (cycleInput_enabled_of_le P hP arrivals s0 (n + 1) hen i hi)).1
  · intro i _
    exact step_packet P _

/-- The sample estimator keeps its enabled flag except in `enableFilter`. -/
theorem sampleCollaborators_enabledOnlyByEnableFilter (n : Nat) :
    EnabledOnlyByEnableFilter (sampleCollaborators n) :=
  { enableFilter_sets := fun _ => rfl
    initBias_keeps := fun _ _ => rfl
    initState_keeps := fun _ _ _ _ => rfl
    setContacts_keeps := fun _ _ => rfl
    update_keeps := fun _ _ _ => rfl }

/-- The scenario of claim C5 with `n = 3`: `biasInitialized()` answers false, false, false,
true; `initBias` is called on each of the first three cycles, and on the fourth `initState`
then `enableFilter`. -/
theorem step_calibration_sequencing_witness :
    (∀ i, i ≤ 3 → (sampleCollaborators 3).biasInitialized
      (cycleInput (sampleCollaborators 3) sampleArrivals i sampleSystem).estimator_
        = decide (i = 3)) ∧
    (∀ i, i < 3 →
      (cycle (sampleCollaborators 3) sampleArrivals i sampleSystem).log.filter
          Event.isCalibration =
        [Event.initBias
          (cycle (sampleCollaborators 3) sampleArrivals i sampleSystem).sys.cheetah_packet_]) ∧
    (cycle (sampleCollaborators 3) sampleArrivals 3 sampleSystem).log.filter
        Event.isCalibration =
      [Event.initState
          (cycle (sampleCollaborators 3) sampleArrivals 3 sampleSystem).sys.cheetah_packet_.getTime
          (cycle (sampleCollaborators 3) sampleArrivals 3 sampleSystem).sys.cheetah_packet_
          ((sampleCollaborators 3).set
            (cycle (sampleCollaborators 3) sampleArrivals 3 sampleSystem).sys.cheetah_packet_
            (cycleInput (sampleCollaborators 3) sampleArrivals 3 sampleSystem).state_),
        Event.enableFilter] :=
  ⟨by decide,
    (step_calibration_sequencing (sampleCollaborators 3)
      (sampleCollaborators_enabledOnlyByEnableFilter 3) sampleArrivals sampleSystem 3 rfl
      (by decide) (by decide)).1,
    (step_calibration_sequencing (sampleCollaborators 3)
      (sampleCollaborators_enabledOnlyByEnableFilter 3) sampleArrivals sampleSystem 3 rfl
      (by decide) (by decide)).2.1⟩

/-- Claim C6, as stated, fails: with an estimator whose `biasInitialized()` answers true on
the first cycle, that first cycle already calls `initState` and `enableFilter`, and the next
cycle, although a packet is available, makes no calibration call at all (it calls
`setContacts` and `update`). -/
theorem transition_not_on_next_cycle :
    Event.biasInitializedQuery true ∈
      (cycle (sampleCollaborators 0) sampleArrivals 0 sampleSystem).log ∧
    packetAvailable (cycleInput (sampleCollaborators 0) sampleArrivals 1 sampleSystem) ∧
    Event.enableFilter ∉ (cycle (sampleCollaborators 0) sampleArrivals 1 sampleSystem).log ∧
    (cycle (sampleCollaborators 0) sampleArrivals 1 sampleSystem).log.filter
      Event.isCalibration = [] ∧
    (cycle (sampleCollaborators 0) sampleArrivals 1 sampleSystem).log.filter
      Event.isEstimation =
        [Event.setContacts (2, 0),
          Event.update ⟨2, some ⟨⟨0, 0, 0⟩⟩, some 1, some true⟩ (2, 0)] := by
  have h2 : (1 : ℚ) + 1 = 2 := by norm_num
  refine ⟨?_, by decide, ?_, ?_, ?_⟩ <;>
    simp [cycle, cycleInput, step, updateNextPacket, sampleSystem, sampleCollaborators,
      sampleArrivals, CheetahSystem.init, CheetahBuffer.arrive, CheetahBuffer.empty,
      CheetahPacket.setTime, CheetahPacket.getTime, Event.isCalibration, Event.isEstimation, h2]

/-- Claim C6, amended: when `biasInitialized()` answers true on a cycle, the transition
happens on that same cycle: its calibration calls are exactly `initState` (on the packet just
assembled, that packet's time, and the robot state just set from it) followed by
`enableFilter`, and the cycle ends with the robot state returned by `initState` and the
estimator returned by `enableFilter`. -/
theorem transition_on_same_cycle (P : Collaborators J C E S)
    (arrivals : Nat → CheetahBuffer J C) (s0 : CheetahSystem J C E S) (K : Nat)
    (h : Event.biasInitializedQuery true ∈ (cycle P arrivals K s0).log) :
    (cycle P arrivals K s0).sys.cheetah_packet_ =
      (updateNextPacket (cycleInput P arrivals K s0)).sys.cheetah_packet_ ∧
    (cycle P arrivals K s0).log.filter Event.isCalibration =
      [Event.initState (cycle P arrivals K s0).sys.cheetah_packet_.getTime
          (cycle P arrivals K s0).sys.cheetah_packet_
          (P.set (cycle P arrivals K s0).sys.cheetah_packet_
            (cycleInput P arrivals K s0).state_),
        Event.enableFilter] ∧
    (cycle P arrivals K s0).sys.state_ =
      (P.initState (cycle P arrivals K s0).sys.cheetah_packet_.getTime
        (cycle P arrivals K s0).sys.cheetah_packet_
        (P.set (cycle P arrivals K s0).sys.cheetah_packet_
          (cycleInput P arrivals K s0).state_)
        (cycleInput P arrivals K s0).estimator_).2 ∧
    (cycle P arrivals K s0).sys.estimator_ =
      P.enableFilter (P.initState (cycle P arrivals K s0).sys.cheetah_packet_.getTime
        (cycle P arrivals K s0).sys.cheetah_packet_
        (P.set (cycle P arrivals K s0).sys.cheetah_packet_
          (cycleInput P arrivals K s0).state_)
        (cycleInput P arrivals K s0).estimator_).1 := by
  obtain ⟨ha, hen, hb⟩ := step_of_biasInitialized_true P _ h
  unfold cycle
  rw [step_readyToInit P _ ha hen hb]
  simp [Event.isCalibration]

/-- The amended claim C6 on the sample run: `biasInitialized()` answers true on the fourth
cycle, and that cycle calls `initState` then `enableFilter`. -/
theorem transition_on_same_cycle_witness :
    Event.biasInitializedQuery true ∈
      (cycle (sampleCollaborators 3) sampleArrivals 3 sampleSystem).log ∧
    (cycle (sampleCollaborators 3) sampleArrivals 3 sampleSystem).log.filter
        Event.isCalibration =
      [Event.initState
          (cycle (sampleCollaborators 3) sampleArrivals 3 sampleSystem).sys.cheetah_packet_.getTime
          (cycle (sampleCollaborators 3) sampleArrivals 3 sampleSystem).sys.cheetah_packet_
          ((sampleCollaborators 3).set
            (cycle (sampleCollaborators 3) sampleArrivals 3 sampleSystem).sys.cheetah_packet_
            (cycleInput (sampleCollaborators 3) sampleArrivals 3 sampleSystem).state_),
        Event.enableFilter] :=
  have hq : Event.biasInitializedQuery true ∈
      (cycle (sampleCollaborators 3) sampleArrivals 3 sampleSystem).log := by
    simp [cycle, cycleInput, step, updateNextPacket, sampleSystem, sampleCollaborators,
      sampleArrivals, CheetahSystem.init, CheetahBuffer.arrive, CheetahBuffer.empty,
      CheetahPacket.setTime, CheetahPacket.getTime]
  ⟨hq, (transition_on_same_cycle (sampleCollaborators 3) sampleArrivals sampleSystem 3 hq).2.1⟩

/-- Claim C7: in a run whose estimator changes its enabled flag only in `enableFilter`, once a
cycle has called `enableFilter` no later cycle makes a calibration call (`initBias`,
`initState`, `enableFilter`), and every later cycle that has a packet takes the Enabled
branch: its estimation calls are exactly `setContacts` then `update` on that cycle's packet. -/
theorem step_enabled_forever (P : Collaborators J C E S) (hP : EnabledOnlyByEnableFilter P)
    (arrivals : Nat → CheetahBuffer J C) (s0 : CheetahSystem J C E S) (k j : Nat)
    (hk : Event.enableFilter ∈ (cycle P arrivals k s0).log) (hj : k < j) :
    (cycle P arrivals j s0).log.filter Event.isCalibration = [] ∧
    Event.enabledQuery false ∉ (cycle P arrivals j s0).log ∧
    (packetAvailable (cycleInput P arrivals j s0) →
      (cycle P arrivals j s0).log.filter Event.isEstimation =
        [Event.setContacts (P.set (cycle P arrivals j s0).sys.cheetah_packet_
            (cycleInput P arrivals j s0).state_),
          Event.update (cycle P arrivals j s0).sys.cheetah_packet_
            (P.setContacts (P.set (cycle P arrivals j s0).sys.cheetah_packet_
              (cycleInput P arrivals j s0).state_)
              (cycleInput P arrivals j s0).estimator_).2]) := by
  obtain ⟨ha, hen, hb⟩ := step_of_enableFilter P _ hk
  have hk1 : P.enabled (cycleInput P arrivals (k + 1) s0).estimator_ = true := by
    rw [cycleInput_succ_estimator]
    unfold cycle
    rw [step_readyToInit P _ ha hen hb]
    exact hP.enableFilter_sets _
  have hjen := cycleInput_enabled_of_le P hP arrivals s0 (k + 1) hk1 j hj
  refine ⟨(step_of_enabled P hP _ hjen).1, ?_, ?_⟩
  · unfold cycle
    by_cases hav : packetAvailable (cycleInput P arrivals j s0)
    · rw [(step_enabled P _ hav hjen).2.2]
      cases (cycleInput P arrivals j s0).enable_pose_publisher_ <;>
        cases (cycleInput P arrivals j s0).enable_state_publisher_ <;> simp
    · rw [step_starved P _ hav]
      simp
  · intro hav
    have hp := step_packet P (cycleInput P arrivals j s0)
    unfold cycle
    rw [hp, (step_enabled P _ hav hjen).2.2]
    cases (cycleInput P arrivals j s0).enable_pose_publisher_ <;>
      cases (cycleInput P arrivals j s0).enable_state_publisher_ <;>
      simp [Event.isEstimation]

/-- Claim C7 on the sample run: the fourth cycle calls `enableFilter`, and the sixth makes no
calibration call. -/
theorem step_enabled_forever_witness :
    Event.enableFilter ∈ (cycle (sampleCollaborators 3) sampleArrivals 3 sampleSystem).log ∧
    (cycle (sampleCollaborators 3) sampleArrivals 5 sampleSystem).log.filter
      Event.isCalibration = [] :=
  have hq : Event.enableFilter ∈
      (cycle (sampleCollaborators 3) sampleArrivals 3 sampleSystem).log := by
    simp [cycle, cycleInput, step, updateNextPacket, sampleSystem, sampleCollaborators,
      sampleArrivals, CheetahSystem.init, CheetahBuffer.arrive, CheetahBuffer.empty,
      CheetahPacket.setTime, CheetahPacket.getTime]
  ⟨hq, (step_enabled_forever (sampleCollaborators 3)
    (sampleCollaborators_enabledOnlyByEnableFilter 3) sampleArrivals sampleSystem 3 5 hq
    (by decide)).1⟩

end Driver

section TimeSync

variable {J C E S : Type}

/-! ## Time matching -/

/-- Subtracting not-a-number gives not-a-number. -/
theorem Double.sub_nan_right (round : ℚ → Double) (a : Double) :
    Double.sub round a Double.nan = Double.nan := by
  cases a <;> rfl

/-- A comparison `fabs(a - b) > epsilon` with `b` not-a-number is false. -/
theorem gt_epsilon_of_nan (round : ℚ → Double) (a : Double) :
    Double.gt (Double.fabs (Double.sub round a Double.nan)) epsilon = false := by
  rw [Double.sub_nan_right]
  rfl

/-- The value 1/10000 is below the double `epsilon`. -/
theorem tolerance_le_epsilon : (1 : ℚ) / 10000 ≤ 7378697629483821 / 2 ^ 66 := by
  norm_num

/-- Two doubles within 1e-4 of each other do not trip the comparison
`fabs(a - b) > epsilon`. -/
theorem gt_epsilon_of_within (P : Collaborators J C E S) (hR : RoundsWithinEpsilon P)
    (a b : Double) (h : Double.within a b) :
    Double.gt (Double.fabs (Double.sub P.round a b)) epsilon = false := by
  cases a <;> cases b
  case fin.fin x y =>
    have hq : |x - y| ≤ 7378697629483821 / 2 ^ 66 := le_trans h tolerance_le_epsilon
    obtain ⟨r, hr, hle⟩ := hR.keeps (x - y) hq
    simp only [Double.sub, hr, Double.fabs, Double.gt, epsilon, decide_eq_false_iff_not,
      not_lt]
    exact hle
  all_goals exact False.elim h

/-- A sample within 1e-4 of the packet's angular velocity on every axis passes the scan's
test. -/
theorem axesMatch_of_within (P : Collaborators J C E S) (hR : RoundsWithinEpsilon P)
    (imu : ImuMeasurement) (buffer : SensorImu)
    (h : withinTolerance imu.angular_velocity buffer.angular_velocity) :
    axesMatch P imu buffer = true := by
  obtain ⟨hx, hy, hz⟩ := h
  simp [axesMatch, gt_epsilon_of_within P hR _ _ hx, gt_epsilon_of_within P hR _ _ hy,
    gt_epsilon_of_within P hR _ _ hz]

/-- A sample whose angular velocity is not-a-number on every axis passes the scan's test,
whatever the packet. -/
theorem axesMatch_of_nan (P : Collaborators J C E S) (imu : ImuMeasurement)
    (buffer : SensorImu) (hx : buffer.angular_velocity.x = Double.nan)
    (hy : buffer.angular_velocity.y = Double.nan)
    (hz : buffer.angular_velocity.z = Double.nan) :
    axesMatch P imu buffer = true := by
  simp [axesMatch, hx, hy, hz, gt_epsilon_of_nan]

/-- Two doubles that are apart trip the comparison `fabs(a - b) > epsilon`. -/
theorem gt_epsilon_of_apart (P : Collaborators J C E S) (hA : RoundsAboveEpsilon P)
    (a b : Double) (h : Double.apart a b) :
    Double.gt (Double.fabs (Double.sub P.round a b)) epsilon = true := by
  cases a <;> cases b
  case fin.fin x y => exact hA.trips (x - y) h
  all_goals exact False.elim h

/-- A sample apart from the packet's angular velocity on some axis fails the scan's test. -/
theorem axesMatch_of_apart (P : Collaborators J C E S) (hA : RoundsAboveEpsilon P)
    (imu : ImuMeasurement) (buffer : SensorImu)
    (h : Double.apart imu.angular_velocity.x buffer.angular_velocity.x ∨
      Double.apart imu.angular_velocity.y buffer.angular_velocity.y ∨
      Double.apart imu.angular_velocity.z buffer.angular_velocity.z) :
    axesMatch P imu buffer = false := by
  unfold axesMatch
  rcases h with h | h | h
  · simp [gt_epsilon_of_apart P hA _ _ h]
  · simp [gt_epsilon_of_apart P hA _ _ h]
  · simp [gt_epsilon_of_apart P hA _ _ h]

/-- The matching sample sets `matched_`, whether or not the subtraction throws. -/
theorem resolveOffset_matched (P : Collaborators J C E S) (s : CheetahSystem J C E S)
    (buffer : SensorImu) : (resolveOffset P s buffer).sys.matched_ = true := by
  unfold resolveOffset
  simp only
  split <;> rfl

/-- The matching sample changes `matched_` and `timestamp_` only. -/
theorem resolveOffset_frame (P : Collaborators J C E S) (s : CheetahSystem J C E S)
    (buffer : SensorImu) :
    (resolveOffset P s buffer).sys =
      { s with matched_ := true, timestamp_ := (resolveOffset P s buffer).sys.timestamp_ } := by
  unfold resolveOffset
  simp only
  split <;> rfl

/-- When the subtraction of line 144 gives `t`, `timestamp_` is `t` and the callback
returns. -/
theorem resolveOffset_of_some (P : Collaborators J C E S) (s : CheetahSystem J C E S)
    (buffer : SensorImu) (t : ℚ)
    (h : P.timeMinusDuration buffer.stamp (P.getTime s.state_) = some t) :
    resolveOffset P s buffer =
      { sys := { s with matched_ := true, timestamp_ := t }, threw := false } := by
  unfold resolveOffset
  simp only [h]

/-- When the subtraction of line 144 throws, `matched_` is already set, `timestamp_` is not
written, and the exception leaves the callback. -/
theorem resolveOffset_of_none (P : Collaborators J C E S) (s : CheetahSystem J C E S)
    (buffer : SensorImu)
    (h : P.timeMinusDuration buffer.stamp (P.getTime s.state_) = none) :
    resolveOffset P s buffer = { sys := { s with matched_ := true }, threw := true } := by
  unfold resolveOffset
  simp only [h]

/-- The scan stops at the first sample passing the test: with sample `b` at position `i`
passing and none before it, the scan ends with what lines 140-146 do for `b`. -/
theorem scanBuffer_first (P : Collaborators J C E S) (s : CheetahSystem J C E S)
    (imu : ImuMeasurement) (himu : s.cheetah_packet_.imu = some imu)
    (l : List SensorImu) (i : Nat) (b : SensorImu) (hb : l[i]? = some b)
    (hin : axesMatch P imu b = true)
    (hfirst : ∀ j b', j < i → l[j]? = some b' → axesMatch P imu b' = false) :
    scanBuffer P l s = some (resolveOffset P s b) := by
  induction l generalizing i with
  | nil => simp at hb
  | cons a l ih =>
    cases i with
    | zero =>
      simp only [List.getElem?_cons_zero, Option.some.injEq] at hb
      subst hb
      simp [scanBuffer, himu, hin]
    | succ i =>
      have ha : axesMatch P imu a = false := hfirst 0 a (Nat.succ_pos i) (by simp)
      simp only [List.getElem?_cons_succ] at hb
      simp only [scanBuffer, himu, ha]
      exact ih i hb (fun j b' hj hb' => hfirst (j + 1) b' (by omega) (by simpa using hb'))

/-- The scan over samples none of which passes the test changes nothing and returns. -/
theorem scanBuffer_none (P : Collaborators J C E S) (s : CheetahSystem J C E S)
    (imu : ImuMeasurement) (himu : s.cheetah_packet_.imu = some imu)
    (l : List SensorImu) (hnone : ∀ b, b ∈ l → axesMatch P imu b = false) :
    scanBuffer P l s = some { sys := s, threw := false } := by
  induction l with
  | nil => rfl
  | cons a l ih =>
    have ha : axesMatch P imu a = false := hnone a (List.mem_cons_self a l)
    simp only [scanBuffer, himu, ha]
    exact ih (fun b hb => hnone b (List.mem_cons_of_mem a hb))

/-- The scan is the search of the first sample passing the test against the held packet's
IMU reading, followed by lines 140-146 for the sample found. -/
theorem scanBuffer_eq_find (P : Collaborators J C E S) (s : CheetahSystem J C E S)
    (imu : ImuMeasurement) (himu : s.cheetah_packet_.imu = some imu) (l : List SensorImu) :
    scanBuffer P l s =
      some (match l.find? (fun b => axesMatch P imu b) with
        | none => { sys := s, threw := false }
        | some b => resolveOffset P s b) := by
  induction l with
  | nil => rfl
  | cons a l ih =>
    by_cases ha : axesMatch P imu a = true
    · simp [scanBuffer, himu, ha, List.find?_cons]
    · have ha' : axesMatch P imu a = false := by simpa using ha
      simp only [scanBuffer, himu, ha', List.find?_cons]
      exact ih

/-- The literal 0 of the doubles is the finite value 0. -/
theorem Double.zero_eq : (0 : Double) = Double.fin 0 := rfl

/-- The sample rounding keeps a difference within `epsilon` as it is. -/
theorem sampleCollaborators_roundsWithinEpsilon (n : Nat) :
    RoundsWithinEpsilon (sampleCollaborators n) :=
  { keeps := fun q hq => ⟨q, rfl, hq⟩ }

/-- The sample rounding sends a difference beyond the next double above `epsilon` above
`epsilon`. -/
theorem sampleCollaborators_roundsAboveEpsilon (n : Nat) :
    RoundsAboveEpsilon (sampleCollaborators n) :=
  { trips := fun q hq => by
      have h : (7378697629483821 : ℚ) / 2 ^ 66 < |q| :=
        lt_of_lt_of_le (by norm_num) hq
      simp [sampleCollaborators, Double.fabs, Double.gt, epsilon, h] }

/-- The scan's test on the sample values: against a packet with angular velocity (0, 0, 0), a
sample with angular velocity (w, w, w) passes exactly when `|0 - w|` is not above
`epsilon`. -/
theorem sample_axesMatch (n : Nat) (t w : ℚ) :
    axesMatch (sampleCollaborators n) ⟨⟨0, 0, 0⟩⟩ (sampleMessage t w) =
      !decide (|0 - w| > 7378697629483821 / 2 ^ 66) := by
  by_cases h : |0 - w| > 7378697629483821 / 2 ^ 66 <;>
    simp [axesMatch, sampleMessage, sampleCollaborators, Double.zero_eq, Double.sub,
      Double.fabs, Double.gt, epsilon, h]

/-- Claim C8, as stated, fails in four ways. (1) With 100 samples held, none passing the test,
a fed sample within tolerance is not stored and `matched_` stays false. (2) With an earlier
held sample within tolerance (stamp 7), a fed sample within tolerance (stamp 10) gives
`timestamp_` = 7 - 3, not 10 - 3. (3) With a fed sample within tolerance stamped 1 and the
robot state's time 3, line 144 throws: `matched_` is set, `timestamp_` is not written, and the
exception leaves the callback. (4) With an earlier held sample that is not-a-number on every
axis (stamp 7), hence not within tolerance, the fed sample (stamp 10) is not used either. -/
theorem timesync_fed_sample_not_used :
    (withinTolerance (⟨0, 0, 0⟩ : Vector3) (sampleMessage 10 0).angular_velocity ∧
      timesyncCallback (sampleCollaborators 3)
          (sampleSyncSystem (List.replicate 100 (sampleMessage 1 1))) (sampleMessage 10 0) =
        some { sys := sampleSyncSystem (List.replicate 100 (sampleMessage 1 1))
               threw := false } ∧
      (sampleSyncSystem (List.replicate 100 (sampleMessage 1 1))).matched_ = false) ∧
    (timesyncCallback (sampleCollaborators 3)
          (sampleSyncSystem [sampleMessage 7 0]) (sampleMessage 10 0) =
        some { sys := { sampleSyncSystem [sampleMessage 7 0, sampleMessage 10 0] with
                 matched_ := true, timestamp_ := 4 }
               threw := false } ∧
      (4 : ℚ) ≠ (sampleMessage 10 0).stamp -
        (sampleCollaborators 3).getTime (sampleSyncSystem [sampleMessage 7 0]).state_) ∧
    (withinTolerance (⟨0, 0, 0⟩ : Vector3) (sampleMessage 1 0).angular_velocity ∧
      timesyncCallback (sampleCollaborators 3) (sampleSyncSystem []) (sampleMessage 1 0) =
        some { sys := { sampleSyncSystem [sampleMessage 1 0] with matched_ := true }
               threw := true } ∧
      (sampleSyncSystem [sampleMessage 1 0]).timestamp_ = 0) ∧
    (¬ withinTolerance (⟨0, 0, 0⟩ : Vector3) (sampleNaNMessage 7).angular_velocity ∧
      timesyncCallback (sampleCollaborators 3)
          (sampleSyncSystem [sampleNaNMessage 7]) (sampleMessage 10 0) =
        some { sys := { sampleSyncSystem [sampleNaNMessage 7, sampleMessage 10 0] with
                 matched_ := true, timestamp_ := 4 }
               threw := false }) := by
  have hwithin : ∀ t : ℚ,
      withinTolerance (⟨0, 0, 0⟩ : Vector3) (sampleMessage t 0).angular_velocity := by
    intro t
    simp [withinTolerance, sampleMessage, Double.zero_eq, Double.within]
  have hsub : ∀ a b : ℚ, 0 ≤ a - b → a - b < 4294967296 →
      (sampleCollaborators 3).timeMinusDuration a b = some (a - b) := by
    intro a b h1 h2
    show (if 0 ≤ a - b ∧ a - b < 4294967296 then some (a - b) else none) = some (a - b)
    rw [if_pos ⟨h1, h2⟩]
  refine ⟨⟨hwithin 10, ?_, rfl⟩, ⟨?_, ?_⟩, ⟨hwithin 1, ?_, rfl⟩, ?_, ?_⟩
  · have hb : bufferSample (sampleSyncSystem (List.replicate 100 (sampleMessage 1 1)))
        (sampleMessage 10 0) = sampleSyncSystem (List.replicate 100 (sampleMessage 1 1)) := by
      simp [bufferSample, sampleSyncSystem]
    unfold timesyncCallback
    simp only [hb]
    have hg : (sampleSyncSystem (List.replicate 100 (sampleMessage 1 1))).matched_ = false ∧
        (sampleSyncSystem (List.replicate 100 (sampleMessage 1 1))).updated_ ≥ 15 :=
      ⟨rfl, by decide⟩
    rw [if_pos hg]
    apply scanBuffer_none _ _ ⟨⟨0, 0, 0⟩⟩ rfl
    intro b hb
    have hbe : b = sampleMessage 1 1 := List.eq_of_mem_replicate hb
    subst hbe
    rw [sample_axesMatch]
    norm_num
  · have h0 : axesMatch (sampleCollaborators 3) ⟨⟨0, 0, 0⟩⟩ (sampleMessage 7 0) = true := by
      rw [sample_axesMatch]
      norm_num
    have hbs : bufferSample (sampleSyncSystem [sampleMessage 7 0]) (sampleMessage 10 0) =
        sampleSyncSystem [sampleMessage 7 0, sampleMessage 10 0] := by
      simp [bufferSample, sampleSyncSystem, sampleMessage]
    unfold timesyncCallback
    simp only [hbs]
    rw [if_pos ⟨rfl, by decide⟩]
    rw [scanBuffer_first _ _ ⟨⟨0, 0, 0⟩⟩ rfl _ 0 (sampleMessage 7 0) rfl h0
      (fun j b' hj _ => absurd hj (Nat.not_lt_zero j))]
    rw [resolveOffset_of_some _ _ _ 4 (by
      show (sampleCollaborators 3).timeMinusDuration 7 3 = some 4
      rw [hsub 7 3 (by norm_num) (by norm_num)]
      norm_num)]
  · norm_num [sampleMessage, sampleCollaborators, sampleSyncSystem]
  · have h0 : axesMatch (sampleCollaborators 3) ⟨⟨0, 0, 0⟩⟩ (sampleMessage 1 0) = true := by
      rw [sample_axesMatch]
      norm_num
    have hbs : bufferSample (sampleSyncSystem []) (sampleMessage 1 0) =
        sampleSyncSystem [sampleMessage 1 0] := by
      simp [bufferSample, sampleSyncSystem, sampleMessage]
    unfold timesyncCallback
    simp only [hbs]
    rw [if_pos ⟨rfl, by decide⟩]
    rw [scanBuffer_first _ _ ⟨⟨0, 0, 0⟩⟩ rfl _ 0 (sampleMessage 1 0) rfl h0
      (fun j b' hj _ => absurd hj (Nat.not_lt_zero j))]
    rw [resolveOffset_of_none]
    simp [sampleCollaborators, sampleSyncSystem, sampleMessage]
  · simp [withinTolerance, sampleNaNMessage, Double.zero_eq, Double.within]
  · have h0 : axesMatch (sampleCollaborators 3) ⟨⟨0, 0, 0⟩⟩ (sampleNaNMessage 7) = true :=
      axesMatch_of_nan _ _ _ rfl rfl rfl
    have hbs : bufferSample (sampleSyncSystem [sampleNaNMessage 7]) (sampleMessage 10 0) =
        sampleSyncSystem [sampleNaNMessage 7, sampleMessage 10 0] := by
      simp [bufferSample, sampleSyncSystem, sampleMessage]
    unfold timesyncCallback
    simp only [hbs]
    rw [if_pos ⟨rfl, by decide⟩]
    rw [scanBuffer_first _ _ ⟨⟨0, 0, 0⟩⟩ rfl _ 0 (sampleNaNMessage 7) rfl h0
      (fun j b' hj _ => absurd hj (Nat.not_lt_zero j))]
    rw [resolveOffset_of_some _ _ _ 4 (by
      show (sampleCollaborators 3).timeMinusDuration 7 3 = some 4
      rw [hsub 7 3 (by norm_num) (by norm_num)]
      norm_num)]

/-- Claim C8, amended: past warm-up and unmatched, with fewer than 100 samples held and none
of them passing the scan's test against the current packet, feeding a sample within 1e-4 on
every axis of the packet's angular velocity stores its copy and sets `matched_`; when the
ROS expression `stamp - ros::Duration(time)` on the fed sample's stamp and the robot state's
time gives `t`, `timestamp_` becomes `t` and the callback returns; when that expression
throws, `timestamp_` is not written and the exception leaves the callback. -/
theorem timesync_fed_sample_matches (P : Collaborators J C E S) (hR : RoundsWithinEpsilon P)
    (s : CheetahSystem J C E S) (imu_message : SensorImu) (imu : ImuMeasurement)
    (hw : 15 ≤ s.updated_) (hm : s.matched_ = false)
    (himu : s.cheetah_packet_.imu = some imu)
    (hin : withinTolerance imu.angular_velocity imu_message.angular_velocity)
    (hroom : s.imu_buffer_.length < 100)
    (hnone : ∀ b, b ∈ s.imu_buffer_ → axesMatch P imu b = false) :
    (∀ t : ℚ, P.timeMinusDuration imu_message.stamp (P.getTime s.state_) = some t →
      timesyncCallback P s imu_message =
        some { sys := { s with
                 imu_buffer_ := s.imu_buffer_ ++
                   [{ stamp := imu_message.stamp
                      angular_velocity := imu_message.angular_velocity
                      linear_acceleration := ⟨0, 0, 0⟩ }]
                 matched_ := true
                 timestamp_ := t }
               threw := false }) ∧
    (P.timeMinusDuration imu_message.stamp (P.getTime s.state_) = none →
      timesyncCallback P s imu_message =
        some { sys := { s with
                 imu_buffer_ := s.imu_buffer_ ++
                   [{ stamp := imu_message.stamp
                      angular_velocity := imu_message.angular_velocity
                      linear_acceleration := ⟨0, 0, 0⟩ }]
                 matched_ := true }
               threw := true }) := by
  have hbs : bufferSample s imu_message =
      { s with imu_buffer_ := s.imu_buffer_ ++
          [{ stamp := imu_message.stamp, angular_velocity := imu_message.angular_velocity
             linear_acceleration := ⟨0, 0, 0⟩ }] } := by
    unfold bufferSample
    rw [if_pos ⟨hw, hroom⟩]
  have key := scanBuffer_first P (bufferSample s imu_message) imu (by rw [hbs]; exact himu)
    (bufferSample s imu_message).imu_buffer_ s.imu_buffer_.length
    { stamp := imu_message.stamp, angular_velocity := imu_message.angular_velocity
      linear_acceleration := ⟨0, 0, 0⟩ } (by rw [hbs]; simp)
    (axesMatch_of_within P hR imu _ hin)
    (by
      intro j b' hj hb'
      rw [hbs] at hb'
      simp only at hb'
      rw [List.getElem?_append_left hj] at hb'
      exact hnone b' (List.getElem?_mem hb'))
  have hcb : timesyncCallback P s imu_message =
      some (resolveOffset P (bufferSample s imu_message)
        { stamp := imu_message.stamp, angular_velocity := imu_message.angular_velocity
          linear_acceleration := ⟨0, 0, 0⟩ }) := by
    unfold timesyncCallback
    simp only
    rw [if_pos (by rw [hbs]; exact ⟨hm, hw⟩), key]
  constructor
  · intro t ht
    rw [hcb, resolveOffset_of_some P _ _ t (by rw [hbs]; exact ht), hbs]
  · intro ht
    rw [hcb, resolveOffset_of_none P _ _ (by rw [hbs]; exact ht), hbs]

/-- The amended claim C8 on a sample state: one held sample failing the test, a fed sample
within tolerance, stamped 10, the robot state's time 3: `matched_` is set and `timestamp_`
is 7, the value of 10 - 3 seconds. -/
theorem timesync_fed_sample_matches_witness :
    15 ≤ (sampleSyncSystem [sampleMessage 7 1]).updated_ ∧
    timesyncCallback (sampleCollaborators 3) (sampleSyncSystem [sampleMessage 7 1])
        (sampleMessage 10 0) =
      some { sys := { sampleSyncSystem [sampleMessage 7 1, sampleMessage 10 0] with
               matched_ := true, timestamp_ := 7 }
             threw := false } :=
  ⟨by decide,
    (timesync_fed_sample_matches (sampleCollaborators 3)
      (sampleCollaborators_roundsWithinEpsilon 3) (sampleSyncSystem [sampleMessage 7 1])
      (sampleMessage 10 0) ⟨⟨0, 0, 0⟩⟩ (by decide) rfl rfl
      (by simp [withinTolerance, sampleMessage, Double.zero_eq, Double.within])
      (by decide)
      (by
        intro b hb
        have hbe : b = sampleMessage 7 1 := by simpa [sampleSyncSystem] using hb
        subst hbe
        rw [sample_axesMatch]
        norm_num)).1 7
      (by
        show (if (0 : ℚ) ≤ 10 - 3 ∧ (10 : ℚ) - 3 < 4294967296 then some ((10 : ℚ) - 3)
          else none) = some 7
        norm_num)⟩

/-- Claim C9, as stated, fails in two ways. (1) With held samples a not-a-number one
(stamp 5), which is not within tolerance, and one within tolerance (stamp 7), the callback
resolves from the first: `timestamp_` = 5 - 3, not 7 - 3. (2) With a single held sample
within tolerance stamped 1 and the robot state's time 3, line 144 throws: `matched_` is set
and `timestamp_` is not written. -/
theorem timesync_first_match_not_within :
    (¬ withinTolerance (⟨0, 0, 0⟩ : Vector3) (sampleNaNMessage 5).angular_velocity ∧
      withinTolerance (⟨0, 0, 0⟩ : Vector3) (sampleMessage 7 0).angular_velocity ∧
      timesyncCallback (sampleCollaborators 3)
          (sampleSyncSystem [sampleNaNMessage 5, sampleMessage 7 0]) (sampleMessage 9 1) =
        some { sys := { sampleSyncSystem
                   [sampleNaNMessage 5, sampleMessage 7 0, sampleMessage 9 1] with
                 matched_ := true, timestamp_ := 2 }
               threw := false } ∧
      (2 : ℚ) ≠ (sampleMessage 7 0).stamp - 3) ∧
    (withinTolerance (⟨0, 0, 0⟩ : Vector3) (sampleMessage 1 0).angular_velocity ∧
      timesyncCallback (sampleCollaborators 3) (sampleSyncSystem [sampleMessage 1 0])
          (sampleMessage 9 1) =
        some { sys := { sampleSyncSystem [sampleMessage 1 0, sampleMessage 9 1] with
                 matched_ := true }
               threw := true } ∧
      (sampleSyncSystem [sampleMessage 1 0, sampleMessage 9 1]).timestamp_ = 0) := by
  refine ⟨⟨?_, ?_, ?_, by norm_num [sampleMessage]⟩, ?_, ?_, rfl⟩
  · simp [withinTolerance, sampleNaNMessage, Double.zero_eq, Double.within]
  · simp [withinTolerance, sampleMessage, Double.zero_eq, Double.within]
  · have hbs : bufferSample (sampleSyncSystem [sampleNaNMessage 5, sampleMessage 7 0])
        (sampleMessage 9 1) =
        sampleSyncSystem [sampleNaNMessage 5, sampleMessage 7 0, sampleMessage 9 1] := by
      simp [bufferSample, sampleSyncSystem, sampleMessage]
    unfold timesyncCallback
    simp only [hbs]
    rw [if_pos ⟨rfl, by decide⟩]
    rw [scanBuffer_first _ _ ⟨⟨0, 0, 0⟩⟩ rfl _ 0 (sampleNaNMessage 5) rfl
      (axesMatch_of_nan _ _ _ rfl rfl rfl)
      (fun j b' hj _ => absurd hj (Nat.not_lt_zero j))]
    rw [resolveOffset_of_some _ _ _ 2 (by
      show (if (0 : ℚ) ≤ 5 - 3 ∧ (5 : ℚ) - 3 < 4294967296 then some ((5 : ℚ) - 3) else none)
        = some 2
      norm_num)]
  · simp [withinTolerance, sampleMessage, Double.zero_eq, Double.within]
  · have hbs : bufferSample (sampleSyncSystem [sampleMessage 1 0]) (sampleMessage 9 1) =
        sampleSyncSystem [sampleMessage 1 0, sampleMessage 9 1] := by
      simp [bufferSample, sampleSyncSystem, sampleMessage]
    unfold timesyncCallback
    simp only [hbs]
    rw [if_pos ⟨rfl, by decide⟩]
    rw [scanBuffer_first _ _ ⟨⟨0, 0, 0⟩⟩ rfl _ 0 (sampleMessage 1 0) rfl
      (by rw [sample_axesMatch]; norm_num)
      (fun j b' hj _ => absurd hj (Nat.not_lt_zero j))]
    rw [resolveOffset_of_none _ _ _ (by
      show (if (0 : ℚ) ≤ 1 - 3 ∧ (1 : ℚ) - 3 < 4294967296 then some ((1 : ℚ) - 3) else none)
        = none
      norm_num)]

/-- Claim C9, amended: when the scan runs (warm-up over, unmatched) and the buffer, as it is
after the append step, holds at position `i` a sample passing the scan's test and none before
it, the callback sets `matched_` and resolves from that sample, whatever the samples after
position `i` are: when the ROS expression `stamp - ros::Duration(time)` on that sample's stamp
and the robot state's time gives `t`, `timestamp_` becomes `t` and nothing else changes; when
it throws, `timestamp_` is not written and the exception leaves the callback. Every sample
within 1e-4 on all three axes passes the test. -/
theorem timesync_first_match_wins (P : Collaborators J C E S) (s : CheetahSystem J C E S)
    (imu_message : SensorImu) (imu : ImuMeasurement) (i : Nat) (b : SensorImu)
    (hw : 15 ≤ s.updated_) (hm : s.matched_ = false)
    (himu : s.cheetah_packet_.imu = some imu)
    (hb : (bufferSample s imu_message).imu_buffer_[i]? = some b)
    (hin : axesMatch P imu b = true)
    (hfirst : ∀ j b', j < i → (bufferSample s imu_message).imu_buffer_[j]? = some b' →
      axesMatch P imu b' = false) :
    (∀ t : ℚ, P.timeMinusDuration b.stamp (P.getTime s.state_) = some t →
      timesyncCallback P s imu_message =
        some { sys := { bufferSample s imu_message with matched_ := true, timestamp_ := t }
               threw := false }) ∧
    (P.timeMinusDuration b.stamp (P.getTime s.state_) = none →
      timesyncCallback P s imu_message =
        some { sys := { bufferSample s imu_message with matched_ := true }
               threw := true }) ∧
    (RoundsWithinEpsilon P → ∀ b' : SensorImu,
      withinTolerance imu.angular_velocity b'.angular_velocity →
        axesMatch P imu b' = true) := by
  have hkeep : (bufferSample s imu_message).matched_ = s.matched_ ∧
      (bufferSample s imu_message).updated_ = s.updated_ ∧
      (bufferSample s imu_message).cheetah_packet_ = s.cheetah_packet_ ∧
      (bufferSample s imu_message).state_ = s.state_ := by
    unfold bufferSample
    split <;> exact ⟨rfl, rfl, rfl, rfl⟩
  obtain ⟨h1, h2, h3, h4⟩ := hkeep
  have hcb : timesyncCallback P s imu_message =
      some (resolveOffset P (bufferSample s imu_message) b) := by
    unfold timesyncCallback
    simp only
    rw [if_pos ⟨by rw [h1]; exact hm, by rw [h2]; exact hw⟩]
    exact scanBuffer_first P _ imu (by rw [h3]; exact himu) _ i b hb hin hfirst
  refine ⟨?_, ?_, fun hR b' hb' => axesMatch_of_within P hR imu b' hb'⟩
  · intro t ht
    rw [hcb, resolveOffset_of_some P _ _ t (by rw [h4]; exact ht)]
  · intro ht
    rw [hcb, resolveOffset_of_none P _ _ (by rw [h4]; exact ht)]

/-- The amended claim C9 on a sample state: the held samples are one failing the test
(stamp 5), one within tolerance (stamp 7, angular velocity 1/32768 on each axis), and an
exact one (stamp 9); the offset comes from the one stamped 7. -/
theorem timesync_first_match_wins_witness :
    axesMatch (sampleCollaborators 3) ⟨⟨0, 0, 0⟩⟩ (sampleMessage 9 0) = true ∧
    timesyncCallback (sampleCollaborators 3)
        (sampleSyncSystem [sampleMessage 5 1, sampleMessage 7 (1 / 32768), sampleMessage 9 0])
        (sampleMessage 10 0) =
      some { sys := { bufferSample
                 (sampleSyncSystem
                   [sampleMessage 5 1, sampleMessage 7 (1 / 32768), sampleMessage 9 0])
                 (sampleMessage 10 0) with
               matched_ := true, timestamp_ := 4 }
             threw := false } :=
  ⟨by rw [sample_axesMatch]; norm_num,
    (timesync_first_match_wins (sampleCollaborators 3)
      (sampleSyncSystem [sampleMessage 5 1, sampleMessage 7 (1 / 32768), sampleMessage 9 0])
      (sampleMessage 10 0) ⟨⟨0, 0, 0⟩⟩ 1 (sampleMessage 7 (1 / 32768)) (by decide) rfl rfl
      (by simp [bufferSample, sampleSyncSystem])
      (by rw [sample_axesMatch]; norm_num [abs_of_nonneg])
      (by
        intro j b' hj hb'
        have hj0 : j = 0 := by omega
        subst hj0
        have hbe : sampleMessage 5 1 = b' := by
          simpa [bufferSample, sampleSyncSystem] using hb'
        subst hbe
        rw [sample_axesMatch]
        norm_num)).1 4
      (by
        show (if (0 : ℚ) ≤ 7 - 3 ∧ (7 : ℚ) - 3 < 4294967296 then some ((7 : ℚ) - 3)
          else none) = some 4
        norm_num)⟩

/-- A cycle of `step` writes neither `matched_` nor `timestamp_`. -/
theorem step_keeps_match (P : Collaborators J C E S) (s : CheetahSystem J C E S) :
    (step P s).sys.matched_ = s.matched_ ∧ (step P s).sys.timestamp_ = s.timestamp_ := by
  by_cases ha : packetAvailable s
  · obtain ⟨t, ts, i, is, j, js, c, cs, hq⟩ := packetAvailable_cons s ha
    have hu := updateNextPacket_cons s t ts i is j js c cs hq
    cases hen : P.enabled s.estimator_
    · cases hb : P.biasInitialized s.estimator_
      · rw [step_calibrating P s ha hen hb, hu]
        exact ⟨rfl, rfl⟩
      · rw [step_readyToInit P s ha hen hb, hu]
        exact ⟨rfl, rfl⟩
    · rw [(step_enabled P s ha hen).2.1, hu]
      exact ⟨rfl, rfl⟩
  · rw [step_starved P s ha]
    exact ⟨rfl, rfl⟩

/-- Once matched, a callback does not scan: it returns, with `matched_` and `timestamp_` as
they were. -/
theorem timesyncCallback_of_matched (P : Collaborators J C E S) (s : CheetahSystem J C E S)
    (imu_message : SensorImu) (hm : s.matched_ = true) :
    ∃ t, timesyncCallback P s imu_message = some { sys := t, threw := false } ∧
      t.matched_ = true ∧ t.timestamp_ = s.timestamp_ := by
  have hkeep : (bufferSample s imu_message).matched_ = s.matched_ ∧
      (bufferSample s imu_message).timestamp_ = s.timestamp_ := by
    unfold bufferSample
    split <;> exact ⟨rfl, rfl⟩
  refine ⟨bufferSample s imu_message, ?_, by rw [hkeep.1]; exact hm, hkeep.2⟩
  unfold timesyncCallback
  simp only
  rw [if_neg]
  rw [hkeep.1, hm]
  simp

/-- Once matched, any single action returns and keeps `matched_` and `timestamp_`. -/
theorem applyAction_of_matched (P : Collaborators J C E S) (s : CheetahSystem J C E S)
    (a : Action J C) (hm : s.matched_ = true) :
    ∃ t, applyAction P s a = some { sys := t, threw := false } ∧ t.matched_ = true ∧
      t.timestamp_ = s.timestamp_ := by
  cases a with
  | pushTimestamp x => exact ⟨_, rfl, hm, rfl⟩
  | pushImu x => exact ⟨_, rfl, hm, rfl⟩
  | pushJointState x => exact ⟨_, rfl, hm, rfl⟩
  | pushContact x => exact ⟨_, rfl, hm, rfl⟩
  | step =>
    exact ⟨_, rfl, by rw [(step_keeps_match P s).1]; exact hm, (step_keeps_match P s).2⟩
  | timesync m => exact timesyncCallback_of_matched P s m hm

/-- Claim C10: once `matched_` is true, every further call of `timesyncCallback` (with any
sample) and of `step`, in any order and with any producer pushes in between, returns and
leaves `matched_` true and `timestamp_` at the value it had. -/
theorem timestamp_write_once (P : Collaborators J C E S) (acts : List (Action J C))
    (s : CheetahSystem J C E S) (hm : s.matched_ = true) :
    ∃ t, runActions P acts s = some { sys := t, threw := false } ∧ t.matched_ = true ∧
      t.timestamp_ = s.timestamp_ := by
  induction acts generalizing s with
  | nil => exact ⟨s, rfl, hm, rfl⟩
  | cons a rest ih =>
    obtain ⟨u, hu, hum, hut⟩ := applyAction_of_matched P s a hm
    obtain ⟨t, ht, htm, htt⟩ := ih u hum
    refine ⟨t, ?_, htm, by rw [htt, hut]⟩
    simp only [runActions, hu]
    exact ht

/-- Claim C10 on a sample run: the first callback matches and writes `timestamp_` = 7, the
value of 10 - 3 seconds; a further callback with another matching sample, a push of a full
tuple, a cycle of `step` and one more callback leave `matched_` true and `timestamp_` = 7. -/
theorem timestamp_write_once_witness :
    ∃ s1, timesyncCallback (sampleCollaborators 3) (sampleSyncSystem [])
        (sampleMessage 10 0) = some { sys := s1, threw := false } ∧
      s1.matched_ = true ∧ s1.timestamp_ = 7 ∧
      ∃ t, runActions (sampleCollaborators 3)
          [Action.timesync (sampleMessage 20 0), Action.pushTimestamp 4,
            Action.pushImu ⟨⟨0, 0, 0⟩⟩, Action.pushJointState 1, Action.pushContact true,
            Action.step, Action.timesync (sampleMessage 30 0)] s1 =
          some { sys := t, threw := false } ∧
        t.matched_ = true ∧ t.timestamp_ = s1.timestamp_ :=
  ⟨{ sampleSyncSystem [sampleMessage 10 0] with matched_ := true, timestamp_ := 7 },
    (by
      have hbs : bufferSample (sampleSyncSystem []) (sampleMessage 10 0) =
          sampleSyncSystem [sampleMessage 10 0] := by
        simp [bufferSample, sampleSyncSystem, sampleMessage]
      unfold timesyncCallback
      simp only [hbs]
      rw [if_pos ⟨rfl, by decide⟩]
      rw [scanBuffer_first _ _ ⟨⟨0, 0, 0⟩⟩ rfl _ 0 (sampleMessage 10 0) rfl
        (by rw [sample_axesMatch]; norm_num)
        (fun j b' hj _ => absurd hj (Nat.not_lt_zero j))]
      rw [resolveOffset_of_some _ _ _ 7 (by
        show (if (0 : ℚ) ≤ 10 - 3 ∧ (10 : ℚ) - 3 < 4294967296 then some ((10 : ℚ) - 3)
          else none) = some 7
        norm_num)]),
    rfl, rfl,
    timestamp_write_once (sampleCollaborators 3) _ _ rfl⟩

end TimeSync

section Runs

variable {J C E S : Type}

/-! ## Warm-up, the sample buffer and the update counter -/

/-- The first block of the callback, with the stored copy named. -/
theorem bufferSample_eq (s : CheetahSystem J C E S) (imu_message : SensorImu) :
    bufferSample s imu_message =
      { s with imu_buffer_ :=
          if 15 ≤ s.updated_ ∧ s.imu_buffer_.length < 100 then
            s.imu_buffer_ ++ [storedCopy imu_message]
          else s.imu_buffer_ } := by
  unfold bufferSample storedCopy
  split <;> rfl

/-- Whatever the scan ends with is the system it started from, returned, or what lines
140-146 do for one of the scanned samples. -/
theorem scanBuffer_result (P : Collaborators J C E S) (l : List SensorImu)
    (s : CheetahSystem J C E S) (r : Ended J C E S) (h : scanBuffer P l s = some r) :
    r = { sys := s, threw := false } ∨ ∃ b, b ∈ l ∧ r = resolveOffset P s b := by
  induction l with
  | nil =>
    simp only [scanBuffer, Option.some.injEq] at h
    exact Or.inl h.symm
  | cons a l ih =>
    unfold scanBuffer at h
    cases himu : s.cheetah_packet_.imu with
    | none => simp [himu] at h
    | some imu =>
      simp only [himu] at h
      by_cases hm : axesMatch P imu a = true
      · simp only [hm, if_true, Option.some.injEq] at h
        exact Or.inr ⟨a, List.mem_cons_self a l, h.symm⟩
      · simp only [hm] at h
        rcases ih h with h1 | ⟨b, hb, h1⟩
        · exact Or.inl h1
        · exact Or.inr ⟨b, List.mem_cons_of_mem a hb, h1⟩

/-- With the packet's IMU reading assigned, the scan does not fault. -/
theorem scanBuffer_total (P : Collaborators J C E S) (l : List SensorImu)
    (s : CheetahSystem J C E S) (imu : ImuMeasurement)
    (himu : s.cheetah_packet_.imu = some imu) :
    ∃ r, scanBuffer P l s = some r :=
  ⟨_, scanBuffer_eq_find P s imu himu l⟩

/-- During warm-up the callback returns the system unchanged. -/
theorem timesyncCallback_warmup (P : Collaborators J C E S) (s : CheetahSystem J C E S)
    (imu_message : SensorImu) (h : s.updated_ < 15) :
    timesyncCallback P s imu_message = some { sys := s, threw := false } := by
  have hb : bufferSample s imu_message = s := by
    rw [bufferSample_eq, if_neg (by omega)]
  unfold timesyncCallback
  simp only [hb]
  rw [if_neg (by omega)]

/-- Apart from `matched_` and `timestamp_`, a callback that does not fault leaves what its
first block left. -/
theorem timesyncCallback_frame (P : Collaborators J C E S) (s : CheetahSystem J C E S)
    (r : Ended J C E S) (imu_message : SensorImu)
    (h : timesyncCallback P s imu_message = some r) :
    r.sys = { bufferSample s imu_message with
      matched_ := r.sys.matched_, timestamp_ := r.sys.timestamp_ } := by
  unfold timesyncCallback at h
  simp only at h
  split at h
  · rcases scanBuffer_result P _ _ _ h with h1 | ⟨b, _, h1⟩
    · rw [h1]
    · rw [h1, resolveOffset_frame]
  · simp only [Option.some.injEq] at h
    rw [← h]

/-- What a cycle of `step` does to the counter, the sample buffer and the packet. -/
theorem step_frame (P : Collaborators J C E S) (s : CheetahSystem J C E S) :
    (step P s).hasUpdated = (updateNextPacket s).hasUpdated ∧
    (step P s).sys.updated_ = s.updated_ + (if (updateNextPacket s).hasUpdated then 1 else 0) ∧
    (step P s).sys.imu_buffer_ = s.imu_buffer_ ∧
    (step P s).sys.cheetah_packet_ = (updateNextPacket s).sys.cheetah_packet_ ∧
    (step P s).sys.cheetah_buffer_ = (updateNextPacket s).sys.cheetah_buffer_ := by
  by_cases ha : packetAvailable s
  · obtain ⟨t, ts, i, is, j, js, c, cs, hq⟩ := packetAvailable_cons s ha
    have hu := updateNextPacket_cons s t ts i is j js c cs hq
    cases hen : P.enabled s.estimator_
    · cases hb : P.biasInitialized s.estimator_
      · rw [step_calibrating P s ha hen hb, hu]
        exact ⟨rfl, rfl, rfl, rfl, rfl⟩
      · rw [step_readyToInit P s ha hen hb, hu]
        exact ⟨rfl, rfl, rfl, rfl, rfl⟩
    · rw [(step_enabled P s ha hen).2.1, (step_enabled P s ha hen).1, hu]
      exact ⟨rfl, rfl, rfl, rfl, rfl⟩
  · rw [step_starved P s ha, updateNextPacket_starved s ha]
    exact ⟨rfl, rfl, rfl, rfl, rfl⟩

/-- A run continues after an action that returned. -/
theorem runActions_cons_returned (P : Collaborators J C E S) (a : Action J C)
    (rest : List (Action J C)) (s t : CheetahSystem J C E S)
    (h : applyAction P s a = some { sys := t, threw := false }) :
    runActions P (a :: rest) s = runActions P rest t := by
  simp [runActions, h]

/-- The count of assembling cycles continues after an action that returned. -/
theorem successfulSteps_cons_returned (P : Collaborators J C E S) (a : Action J C)
    (rest : List (Action J C)) (s t : CheetahSystem J C E S)
    (h : applyAction P s a = some { sys := t, threw := false }) :
    successfulSteps P (a :: rest) s =
      (match a with
        | Action.step => if (updateNextPacket s).hasUpdated then 1 else 0
        | _ => 0) + successfulSteps P rest t := by
  cases a <;> simp only [successfulSteps, h, Bool.false_eq_true, if_false]

/-- A producer push or a cycle of `step` keeps `matched_`, `timestamp_` and the sample buffer,
and a callback keeps them during warm-up; the counter grows by one on a successful `step`. -/
theorem run_warmup (P : Collaborators J C E S) (acts : List (Action J C))
    (s : CheetahSystem J C E S) (hb : s.imu_buffer_ = []) (hm : s.matched_ = false)
    (hc : s.updated_ + successfulSteps P acts s < 15) :
    ∃ t, runActions P acts s = some { sys := t, threw := false } ∧ t.imu_buffer_ = [] ∧
      t.matched_ = false ∧ t.timestamp_ = s.timestamp_ := by
  induction acts generalizing s with
  | nil => exact ⟨s, rfl, hb, hm, rfl⟩
  | cons a rest ih =>
    cases a with
    | pushTimestamp x =>
      rw [successfulSteps_cons_returned P (Action.pushTimestamp x) rest s _ rfl] at hc
      rw [runActions_cons_returned P (Action.pushTimestamp x) rest s _ rfl]
      exact ih _ hb hm (by simpa using hc)
    | pushImu x =>
      rw [successfulSteps_cons_returned P (Action.pushImu x) rest s _ rfl] at hc
      rw [runActions_cons_returned P (Action.pushImu x) rest s _ rfl]
      exact ih _ hb hm (by simpa using hc)
    | pushJointState x =>
      rw [successfulSteps_cons_returned P (Action.pushJointState x) rest s _ rfl] at hc
      rw [runActions_cons_returned P (Action.pushJointState x) rest s _ rfl]
      exact ih _ hb hm (by simpa using hc)
    | pushContact x =>
      rw [successfulSteps_cons_returned P (Action.pushContact x) rest s _ rfl] at hc
      rw [runActions_cons_returned P (Action.pushContact x) rest s _ rfl]
      exact ih _ hb hm (by simpa using hc)
    | step =>
      rw [successfulSteps_cons_returned P Action.step rest s _ rfl] at hc
      rw [runActions_cons_returned P Action.step rest s _ rfl]
      simp only at hc
      obtain ⟨-, hu, hbuf, -, -⟩ := step_frame P s
      obtain ⟨hmm, hts⟩ := step_keeps_match P s
      obtain ⟨t, ht, h1, h2, h3⟩ := ih (step P s).sys (by rw [hbuf]; exact hb)
        (by rw [hmm]; exact hm) (by rw [hu]; omega)
      exact ⟨t, ht, h1, h2, by rw [h3, hts]⟩
    | timesync m =>
      have hw : s.updated_ < 15 := by omega
      have hcb : applyAction P s (Action.timesync m) = some { sys := s, threw := false } :=
        timesyncCallback_warmup P s m hw
      rw [successfulSteps_cons_returned P _ rest s _ hcb] at hc
      rw [runActions_cons_returned P _ rest s _ hcb]
      exact ih s hb hm (by simpa using hc)

/-- Claim C11: while fewer than 15 updates are counted, `timesyncCallback` returns and leaves
the whole system, the sample buffer, `matched_` and `timestamp_` included, unchanged; and from
a system just constructed, any run of producer pushes, callbacks and cycles of `step` of which
fewer than 15 assembled a packet returns with the sample buffer empty and `matched_` false. -/
theorem timesync_warmup_gating (P : Collaborators J C E S) :
    (∀ (s : CheetahSystem J C E S) (imu_message : SensorImu), s.updated_ < 15 →
      timesyncCallback P s imu_message = some { sys := s, threw := false }) ∧
    (∀ (acts : List (Action J C)) (buffer : CheetahBuffer J C) (st : S) (est : E)
        (pose state : Bool),
      successfulSteps P acts (CheetahSystem.init buffer st est pose state) < 15 →
      ∃ t, runActions P acts (CheetahSystem.init buffer st est pose state) =
          some { sys := t, threw := false } ∧
        t.imu_buffer_ = [] ∧ t.matched_ = false ∧ t.timestamp_ = 0) := by
  refine ⟨fun s m h => timesyncCallback_warmup P s m h, ?_⟩
  intro acts buffer st est pose state h
  obtain ⟨t, ht, h1, h2, h3⟩ := run_warmup P acts (CheetahSystem.init buffer st est pose state)
    rfl rfl (by simpa [CheetahSystem.init] using h)
  exact ⟨t, ht, h1, h2, h3⟩

/-- A callback whose scan can read the packet does not fault. -/
theorem timesyncCallback_total (P : Collaborators J C E S) (s : CheetahSystem J C E S)
    (imu_message : SensorImu) (h : packetAssigned s) :
    ∃ r, timesyncCallback P s imu_message = some r := by
  unfold timesyncCallback
  simp only
  split
  · rename_i hg
    have hu : (bufferSample s imu_message).updated_ = s.updated_ := by
      rw [bufferSample_eq]
    have hp : (bufferSample s imu_message).cheetah_packet_ = s.cheetah_packet_ := by
      rw [bufferSample_eq]
    obtain ⟨imu, himu⟩ := h (by have := hg.2; rw [hu] at this; omega)
    exact scanBuffer_total P _ _ imu (by rw [hp]; exact himu)
  · exact ⟨_, rfl⟩

/-- A callback that does not fault keeps the counter, the packet and the queues, however it
ends. -/
theorem timesyncCallback_keeps (P : Collaborators J C E S) (s : CheetahSystem J C E S)
    (r : Ended J C E S) (imu_message : SensorImu)
    (h : timesyncCallback P s imu_message = some r) :
    r.sys.updated_ = s.updated_ ∧ r.sys.cheetah_packet_ = s.cheetah_packet_ ∧
    r.sys.cheetah_buffer_ = s.cheetah_buffer_ ∧ r.sys.state_ = s.state_ ∧
    r.sys.estimator_ = s.estimator_ ∧
    r.sys.imu_buffer_ =
      (if 15 ≤ s.updated_ ∧ s.imu_buffer_.length < 100 then
        s.imu_buffer_ ++ [storedCopy imu_message]
      else s.imu_buffer_) := by
  have hf := timesyncCallback_frame P s r imu_message h
  rw [bufferSample_eq] at hf
  rw [hf]
  exact ⟨rfl, rfl, rfl, rfl, rfl, rfl⟩

/-- A cycle of `step` keeps the packet assigned. -/
theorem step_packetAssigned (P : Collaborators J C E S) (s : CheetahSystem J C E S)
    (h : packetAssigned s) : packetAssigned (step P s).sys := by
  obtain ⟨-, hu, -, hp, -⟩ := step_frame P s
  intro _
  rw [hp]
  by_cases ha : packetAvailable s
  · obtain ⟨t, ts, i, is, j, js, c, cs, hq⟩ := packetAvailable_cons s ha
    rw [updateNextPacket_cons s t ts i is j js c cs hq]
    exact ⟨i, rfl⟩
  · rw [updateNextPacket_starved s ha] at hu ⊢
    simp only [Bool.false_eq_true, if_false, Nat.add_zero] at hu
    exact h (by omega)

/-- From a system whose packet is assigned once an update is counted, no action faults, and
the packet stays assigned. -/
theorem applyAction_total (P : Collaborators J C E S) (s : CheetahSystem J C E S)
    (a : Action J C) (h : packetAssigned s) :
    ∃ r, applyAction P s a = some r ∧ packetAssigned r.sys := by
  cases a with
  | pushTimestamp x => exact ⟨_, rfl, h⟩
  | pushImu x => exact ⟨_, rfl, h⟩
  | pushJointState x => exact ⟨_, rfl, h⟩
  | pushContact x => exact ⟨_, rfl, h⟩
  | step => exact ⟨_, rfl, step_packetAssigned P s h⟩
  | timesync m =>
    obtain ⟨r, hr⟩ := timesyncCallback_total P s m h
    obtain ⟨hu, hp, -⟩ := timesyncCallback_keeps P s r m hr
    refine ⟨r, hr, ?_⟩
    intro h1
    rw [hp]
    exact h (by omega)

/-- From a system whose packet is assigned once an update is counted, no run faults. -/
theorem runActions_total (P : Collaborators J C E S) (acts : List (Action J C))
    (s : CheetahSystem J C E S) (h : packetAssigned s) :
    ∃ r, runActions P acts s = some r ∧ packetAssigned r.sys := by
  induction acts generalizing s with
  | nil => exact ⟨_, rfl, h⟩
  | cons a rest ih =>
    obtain ⟨u, hu, hpu⟩ := applyAction_total P s a h
    by_cases ht : u.threw = true
    · exact ⟨u, by simp [runActions, hu, ht], hpu⟩
    · obtain ⟨r, hr, hpr⟩ := ih u.sys hpu
      exact ⟨r, by simp only [runActions, hu, ht]; exact hr, hpr⟩

/-- A system just constructed has counted no update. -/
theorem init_packetAssigned (buffer : CheetahBuffer J C) (st : S) (est : E)
    (pose state : Bool) :
    packetAssigned (CheetahSystem.init buffer st est pose state : CheetahSystem J C E S) := by
  intro h
  simp [CheetahSystem.init] at h

/-- Claim C11 on a sample run: 14 cycles assemble a packet, a callback follows each, and the
sample buffer is still empty with `matched_` false. -/
theorem timesync_warmup_gating_witness :
    successfulSteps (sampleCollaborators 3) (sampleRun 14) sampleSystem = 14 ∧
    ∃ t, runActions (sampleCollaborators 3) (sampleRun 14) sampleSystem =
        some { sys := t, threw := false } ∧
      t.imu_buffer_ = [] ∧ t.matched_ = false ∧ t.timestamp_ = 0 :=
  ⟨by decide,
    (timesync_warmup_gating (sampleCollaborators 3)).2 (sampleRun 14) CheetahBuffer.empty
      (0, 0) (0, false) false false (by decide)⟩

/-- An action that does not fault keeps the buffered samples in place (it can only add at
the back) and keeps the buffer within 100 samples. -/
theorem applyAction_buffer (P : Collaborators J C E S) (s : CheetahSystem J C E S)
    (r : Ended J C E S) (a : Action J C) (h : applyAction P s a = some r) :
    s.imu_buffer_ <+: r.sys.imu_buffer_ ∧
      (s.imu_buffer_.length ≤ 100 → r.sys.imu_buffer_.length ≤ 100) := by
  cases a with
  | pushTimestamp x =>
    simp only [applyAction, Option.some.injEq] at h
    rw [← h]
    exact ⟨List.prefix_refl _, id⟩
  | pushImu x =>
    simp only [applyAction, Option.some.injEq] at h
    rw [← h]
    exact ⟨List.prefix_refl _, id⟩
  | pushJointState x =>
    simp only [applyAction, Option.some.injEq] at h
    rw [← h]
    exact ⟨List.prefix_refl _, id⟩
  | pushContact x =>
    simp only [applyAction, Option.some.injEq] at h
    rw [← h]
    exact ⟨List.prefix_refl _, id⟩
  | step =>
    simp only [applyAction, Option.some.injEq] at h
    rw [← h]
    simp only
    rw [(step_frame P s).2.2.1]
    exact ⟨List.prefix_refl _, id⟩
  | timesync m =>
    obtain ⟨-, -, -, -, -, hb⟩ := timesyncCallback_keeps P s r m h
    rw [hb]
    split
    · rename_i hg
      refine ⟨List.prefix_append _ _, fun _ => ?_⟩
      simp only [List.length_append, List.length_singleton]
      omega
    · exact ⟨List.prefix_refl _, id⟩

/-- A run that does not fault keeps the buffered samples in place and the buffer within
100. -/
theorem runActions_buffer (P : Collaborators J C E S) (acts : List (Action J C))
    (s : CheetahSystem J C E S) (r : Ended J C E S) (h : runActions P acts s = some r) :
    s.imu_buffer_ <+: r.sys.imu_buffer_ ∧
      (s.imu_buffer_.length ≤ 100 → r.sys.imu_buffer_.length ≤ 100) := by
  induction acts generalizing s with
  | nil =>
    simp only [runActions, Option.some.injEq] at h
    rw [← h]
    exact ⟨List.prefix_refl _, id⟩
  | cons a rest ih =>
    simp only [runActions] at h
    cases hu : applyAction P s a with
    | none => simp [hu] at h
    | some u =>
      simp only [hu] at h
      obtain ⟨h1, h2⟩ := applyAction_buffer P s u a hu
      by_cases ht : u.threw = true
      · simp only [ht, if_true, Option.some.injEq] at h
        rw [← h]
        exact ⟨h1, h2⟩
      · simp only [ht] at h
        obtain ⟨h3, h4⟩ := ih u.sys h
        exact ⟨h1.trans h3, fun hl => h4 (h2 hl)⟩

/-- Claim C12: from a system just constructed, every run of producer pushes, cycles of `step`
and callbacks ends, without fault, with at most 100 samples buffered; a callback appends
exactly the copy of the fed sample's stamp and angular velocity, at the back, when 15 updates
are counted and fewer than 100 samples are held, and leaves the buffer as it is otherwise;
`step` leaves the buffer as it is; and over any run the samples held at the start stay, in
their order, at the front of the buffer. -/
theorem imu_buffer_bounded (P : Collaborators J C E S) :
    (∀ (acts : List (Action J C)) (buffer : CheetahBuffer J C) (st : S) (est : E)
        (pose state : Bool),
      ∃ r, runActions P acts (CheetahSystem.init buffer st est pose state) = some r ∧
        r.sys.imu_buffer_.length ≤ 100) ∧
    (∀ (s : CheetahSystem J C E S) (imu_message : SensorImu), packetAssigned s →
      ∃ r, timesyncCallback P s imu_message = some r ∧
        r.sys.imu_buffer_ =
          (if 15 ≤ s.updated_ ∧ s.imu_buffer_.length < 100 then
            s.imu_buffer_ ++
              [{ stamp := imu_message.stamp, angular_velocity := imu_message.angular_velocity
                 linear_acceleration := ⟨0, 0, 0⟩ }]
          else s.imu_buffer_)) ∧
    (∀ s : CheetahSystem J C E S, (step P s).sys.imu_buffer_ = s.imu_buffer_) ∧
    (∀ (acts : List (Action J C)) (s : CheetahSystem J C E S) (r : Ended J C E S),
      runActions P acts s = some r → s.imu_buffer_ <+: r.sys.imu_buffer_) := by
  refine ⟨?_, ?_, fun s => (step_frame P s).2.2.1, fun acts s r h =>
    (runActions_buffer P acts s r h).1⟩
  · intro acts buffer st est pose state
    obtain ⟨r, hr, -⟩ := runActions_total P acts _
      (init_packetAssigned buffer st est pose state)
    exact ⟨r, hr, (runActions_buffer P acts _ r hr).2 (by simp [CheetahSystem.init])⟩
  · intro s m hs
    obtain ⟨r, hr⟩ := timesyncCallback_total P s m hs
    exact ⟨r, hr, (timesyncCallback_keeps P s r m hr).2.2.2.2.2⟩

/-- The scan over samples one of which passes the test sets `matched_`. -/
theorem scanBuffer_of_exists (P : Collaborators J C E S) (s : CheetahSystem J C E S)
    (imu : ImuMeasurement) (himu : s.cheetah_packet_.imu = some imu) (l : List SensorImu)
    (h : ∃ b, b ∈ l ∧ axesMatch P imu b = true) :
    ∃ r, scanBuffer P l s = some r ∧ r.sys.matched_ = true := by
  induction l with
  | nil =>
    obtain ⟨b, hb, -⟩ := h
    simp at hb
  | cons a l ih =>
    unfold scanBuffer
    simp only [himu]
    by_cases hm : axesMatch P imu a = true
    · simp only [hm, if_true]
      exact ⟨_, rfl, resolveOffset_matched P s a⟩
    · simp only [hm]
      apply ih
      obtain ⟨b, hb, hw⟩ := h
      rcases List.mem_cons.1 hb with rfl | hb'
      · exact absurd hw hm
      · exact ⟨b, hb', hw⟩

/-- A callback finding no buffered sample that passes the test does only its first block, and
returns. -/
theorem timesyncCallback_no_match (P : Collaborators J C E S) (s : CheetahSystem J C E S)
    (imu_message : SensorImu) (imu : ImuMeasurement)
    (hsafe : 15 ≤ s.updated_ → s.cheetah_packet_.imu = some imu)
    (hnone : ∀ b, b ∈ (bufferSample s imu_message).imu_buffer_ →
      axesMatch P imu b = false) :
    timesyncCallback P s imu_message =
      some { sys := bufferSample s imu_message, threw := false } := by
  have hu : (bufferSample s imu_message).updated_ = s.updated_ := by rw [bufferSample_eq]
  have hp : (bufferSample s imu_message).cheetah_packet_ = s.cheetah_packet_ := by
    rw [bufferSample_eq]
  unfold timesyncCallback
  simp only
  split
  · rename_i hg
    exact scanBuffer_none P _ imu (by rw [hp]; exact hsafe (by rw [← hu]; exact hg.2)) _ hnone
  · rfl

/-- Feeding messages only extends the buffer at the back. -/
theorem foldl_bufferSample_prefix (ms : List SensorImu) (s : CheetahSystem J C E S) :
    s.imu_buffer_ <+: (ms.foldl bufferSample s).imu_buffer_ ∧
    (ms.foldl bufferSample s).updated_ = s.updated_ ∧
    (ms.foldl bufferSample s).cheetah_packet_ = s.cheetah_packet_ ∧
    (ms.foldl bufferSample s).matched_ = s.matched_ ∧
    (ms.foldl bufferSample s).timestamp_ = s.timestamp_ := by
  induction ms generalizing s with
  | nil => exact ⟨List.prefix_refl _, rfl, rfl, rfl, rfl⟩
  | cons m ms ih =>
    obtain ⟨h1, h2, h3, h4, h5⟩ := ih (bufferSample s m)
    simp only [List.foldl_cons]
    have hb : s.imu_buffer_ <+: (bufferSample s m).imu_buffer_ := by
      rw [bufferSample_eq]
      simp only
      split
      · exact List.prefix_append _ _
      · exact List.prefix_refl _
    refine ⟨hb.trans h1, ?_, ?_, ?_, ?_⟩
    · rw [h2, bufferSample_eq]
    · rw [h3, bufferSample_eq]
    · rw [h4, bufferSample_eq]
    · rw [h5, bufferSample_eq]

/-- Claim C13, as stated, fails: a fed sample whose angular velocity is not-a-number on every
axis is not within 1e-4 of the packet's angular velocity on any axis, yet none of the three
comparisons `fabs(a - b) > epsilon` holds for it, so the callback sets `matched_` and writes
`timestamp_` (7 - 3 seconds). -/
theorem timesync_nan_sample_matches :
    ¬ withinTolerance (⟨0, 0, 0⟩ : Vector3) (sampleNaNMessage 7).angular_velocity ∧
    (sampleSyncSystem []).matched_ = false ∧
    timesyncCallback (sampleCollaborators 3) (sampleSyncSystem []) (sampleNaNMessage 7) =
      some { sys := { sampleSyncSystem [sampleNaNMessage 7] with
               matched_ := true, timestamp_ := 4 }
             threw := false } := by
  refine ⟨by simp [withinTolerance, sampleNaNMessage, Double.zero_eq, Double.within], rfl, ?_⟩
  have hbs : bufferSample (sampleSyncSystem []) (sampleNaNMessage 7) =
      sampleSyncSystem [sampleNaNMessage 7] := by
    simp [bufferSample, sampleSyncSystem, sampleNaNMessage]
  unfold timesyncCallback
  simp only [hbs]
  rw [if_pos ⟨rfl, by decide⟩]
  rw [scanBuffer_first _ _ ⟨⟨0, 0, 0⟩⟩ rfl _ 0 (sampleNaNMessage 7) rfl
    (axesMatch_of_nan _ _ _ rfl rfl rfl)
    (fun j b' hj _ => absurd hj (Nat.not_lt_zero j))]
  rw [resolveOffset_of_some _ _ _ 4 (by
    show (if (0 : ℚ) ≤ 7 - 3 ∧ (7 : ℚ) - 3 < 4294967296 then some ((7 : ℚ) - 3) else none)
      = some 4
    norm_num)]

/-- Claim C13, amended: for a system whose packet is assigned once warm-up is over, (1) a
callback does not fault, and it turns `matched_` from false to true exactly when 15 updates
are counted, `matched_` was false, and some sample of the buffer as it is after the append
step passes the scan's test against the packet's angular velocity; (2) a sequence of
callbacks, however long, in which no sample ever buffered passes the test returns, having done
nothing but the buffering: `matched_` and `timestamp_` are as before; (3) every sample
within 1e-4 on all three axes passes the test; (4) every sample that, on some axis, is finite
and differs from a finite packet value by at least the next double above `epsilon` fails the
test. -/
theorem timesync_matches_iff (P : Collaborators J C E S) (s : CheetahSystem J C E S)
    (imu : ImuMeasurement) (hsafe : 15 ≤ s.updated_ → s.cheetah_packet_.imu = some imu) :
    (∀ imu_message : SensorImu, ∃ r, timesyncCallback P s imu_message = some r ∧
      ((s.matched_ = false ∧ r.sys.matched_ = true) ↔
        (15 ≤ s.updated_ ∧ s.matched_ = false ∧
          ∃ b, b ∈ (bufferSample s imu_message).imu_buffer_ ∧ axesMatch P imu b = true))) ∧
    (∀ ms : List SensorImu,
      (∀ b, b ∈ (ms.foldl bufferSample s).imu_buffer_ → axesMatch P imu b = false) →
      runActions P (ms.map Action.timesync) s =
          some { sys := ms.foldl bufferSample s, threw := false } ∧
        (ms.foldl bufferSample s).matched_ = s.matched_ ∧
        (ms.foldl bufferSample s).timestamp_ = s.timestamp_) ∧
    (RoundsWithinEpsilon P → ∀ b : SensorImu,
      withinTolerance imu.angular_velocity b.angular_velocity → axesMatch P imu b = true) ∧
    (RoundsAboveEpsilon P → ∀ b : SensorImu,
      (Double.apart imu.angular_velocity.x b.angular_velocity.x ∨
        Double.apart imu.angular_velocity.y b.angular_velocity.y ∨
        Double.apart imu.angular_velocity.z b.angular_velocity.z) →
      axesMatch P imu b = false) := by
  refine ⟨?_, ?_, fun hR b hb => axesMatch_of_within P hR imu b hb,
    fun hA b hb => axesMatch_of_apart P hA imu b hb⟩
  · intro m
    have hu : (bufferSample s m).updated_ = s.updated_ := by rw [bufferSample_eq]
    have hp : (bufferSample s m).cheetah_packet_ = s.cheetah_packet_ := by
      rw [bufferSample_eq]
    have hmm : (bufferSample s m).matched_ = s.matched_ := by rw [bufferSample_eq]
    by_cases hex : ∃ b, b ∈ (bufferSample s m).imu_buffer_ ∧ axesMatch P imu b = true
    · by_cases hg : (bufferSample s m).matched_ = false ∧ (bufferSample s m).updated_ ≥ 15
      · obtain ⟨r, hr, hrm⟩ := scanBuffer_of_exists P (bufferSample s m) imu
          (by rw [hp]; exact hsafe (by rw [← hu]; exact hg.2)) _ hex
        refine ⟨r, ?_, ?_⟩
        · unfold timesyncCallback
          simp only
          rw [if_pos hg]
          exact hr
        · rw [hmm, hu] at hg
          exact ⟨fun _ => ⟨hg.2, hg.1, hex⟩, fun _ => ⟨hg.1, hrm⟩⟩
      · refine ⟨{ sys := bufferSample s m, threw := false }, ?_, ?_⟩
        · unfold timesyncCallback
          simp only
          rw [if_neg hg]
        · rw [hmm, hu] at hg
          simp only [hmm]
          constructor
          · intro h
            rw [h.1] at h
            exact absurd h.2 (by simp)
          · intro h
            exact absurd ⟨h.2.1, h.1⟩ hg
    · refine ⟨{ sys := bufferSample s m, threw := false },
        timesyncCallback_no_match P s m imu hsafe
          (fun b hb => by
            have := fun h => hex ⟨b, hb, h⟩
            simpa using this), ?_⟩
      simp only [hmm]
      constructor
      · intro h
        rw [h.1] at h
        exact absurd h.2 (by simp)
      · intro h
        exact absurd h.2.2 hex
  · intro ms
    induction ms generalizing s with
    | nil =>
      intro _
      exact ⟨rfl, rfl, rfl⟩
    | cons m ms ih =>
      intro hnone
      simp only [List.foldl_cons] at hnone ⊢
      obtain ⟨hpre, -⟩ := foldl_bufferSample_prefix ms (bufferSample s m)
      have hcb := timesyncCallback_no_match P s m imu hsafe
        (fun b hb => hnone b (hpre.subset hb))
      have hu : (bufferSample s m).updated_ = s.updated_ := by rw [bufferSample_eq]
      have hp : (bufferSample s m).cheetah_packet_ = s.cheetah_packet_ := by
        rw [bufferSample_eq]
      obtain ⟨h1, h2, h3⟩ := ih (bufferSample s m)
        (by rw [hu, hp]; exact hsafe) hnone
      refine ⟨?_, ?_, ?_⟩
      · rw [List.map_cons, runActions_cons_returned P (Action.timesync m) _ s _ hcb]
        exact h1
      · rw [h2, bufferSample_eq]
      · rw [h3, bufferSample_eq]

/-- The amended claim C13 on a sample state holding 99 samples failing the test: a sample
failing it fills the buffer, then a sample within tolerance arrives beyond the cap and is not
stored, then one more failing; `matched_` stays false and `timestamp_` stays 0. -/
theorem timesync_matches_iff_witness :
    withinTolerance (⟨0, 0, 0⟩ : Vector3) (sampleMessage 10 0).angular_velocity ∧
    runActions (sampleCollaborators 3)
        ([sampleMessage 2 1, sampleMessage 10 0, sampleMessage 3 1].map Action.timesync)
        (sampleSyncSystem (List.replicate 99 (sampleMessage 1 1))) =
      some { sys := [sampleMessage 2 1, sampleMessage 10 0, sampleMessage 3 1].foldl
               bufferSample (sampleSyncSystem (List.replicate 99 (sampleMessage 1 1)))
             threw := false } ∧
    ([sampleMessage 2 1, sampleMessage 10 0, sampleMessage 3 1].foldl bufferSample
        (sampleSyncSystem (List.replicate 99 (sampleMessage 1 1)))).matched_ = false ∧
    ([sampleMessage 2 1, sampleMessage 10 0, sampleMessage 3 1].foldl bufferSample
        (sampleSyncSystem (List.replicate 99 (sampleMessage 1 1)))).timestamp_ = 0 :=
  ⟨by simp [withinTolerance, sampleMessage, Double.zero_eq, Double.within],
    (timesync_matches_iff (sampleCollaborators 3)
      (sampleSyncSystem (List.replicate 99 (sampleMessage 1 1))) ⟨⟨0, 0, 0⟩⟩
      (fun _ => rfl)).2.1
      [sampleMessage 2 1, sampleMessage 10 0, sampleMessage 3 1]
      (by
        intro b hb
        have hb2 : b = sampleMessage 1 1 ∨ b = sampleMessage 2 1 := by
          simpa [bufferSample, sampleSyncSystem, sampleMessage] using hb
        rcases hb2 with rfl | rfl <;> rw [sample_axesMatch] <;> norm_num)⟩

end Runs

section Cycle

variable {J C E S : Type}

/-! ## One cycle of `step`: stamping, starvation, order, lock scope -/

/-- Claim C14, as stated, fails: in an Enabled cycle with nothing resolved (`matched_` false,
`timestamp_` still 0) and a packet whose raw timestamp is 4, `step` stamps base time 0, not
4: the only `setBasetime` call has argument 0 and the robot state ends with base time 0. -/
theorem basetime_not_raw_timestamp :
    (sampleEnabledSystem false false).matched_ = false ∧
    (sampleCollaborators 3).enabled (sampleEnabledSystem false false).estimator_ = true ∧
    (step (sampleCollaborators 3) (sampleEnabledSystem false false)).sys.cheetah_packet_.getTime
      = 4 ∧
    (step (sampleCollaborators 3) (sampleEnabledSystem false false)).log.filter
      Event.isSetBasetime = [Event.setBasetime 0] ∧
    (step (sampleCollaborators 3) (sampleEnabledSystem false false)).sys.state_ = (4, 0) := by
  have h4 : (3 : ℚ) + 1 = 4 := by norm_num
  refine ⟨rfl, rfl, ?_, ?_, ?_⟩ <;>
    simp [step, updateNextPacket, sampleEnabledSystem, sampleSyncSystem, sampleCollaborators,
      sampleArrivals, CheetahPacket.setTime, CheetahPacket.getTime, Event.isSetBasetime, h4]

/-- Claim C14, amended: in every Enabled cycle, after the estimator update, `step` stamps the
robot state's base time with `timestamp_` as it stands, matched or not: the only `setBasetime`
call has argument `timestamp_`, and the robot state at the end of the cycle is `setBasetime`
of `timestamp_` applied to the state returned by `update`. -/
theorem basetime_is_timestamp (P : Collaborators J C E S) (s : CheetahSystem J C E S)
    (h : packetAvailable s) (hen : P.enabled s.estimator_ = true) :
    (step P s).log.filter Event.isSetBasetime = [Event.setBasetime s.timestamp_] ∧
    (step P s).sys.state_ =
      P.setBasetime s.timestamp_
        (P.update (updateNextPacket s).sys.cheetah_packet_
          (P.setContacts (P.set (updateNextPacket s).sys.cheetah_packet_ s.state_)
            s.estimator_).2
          (P.setContacts (P.set (updateNextPacket s).sys.cheetah_packet_ s.state_)
            s.estimator_).1).2 ∧
    (step P s).sys.timestamp_ = s.timestamp_ := by
  obtain ⟨-, hs, hl⟩ := step_enabled P s h hen
  refine ⟨?_, by rw [hs], (step_keeps_match P s).2⟩
  rw [hl]
  cases s.enable_pose_publisher_ <;> cases s.enable_state_publisher_ <;>
    simp [Event.isSetBasetime]

/-- The amended claim C14 on a sample state where a match has been resolved to 7: the
Enabled cycle stamps base time 7. -/
theorem basetime_is_timestamp_witness :
    packetAvailable { sampleEnabledSystem true true with matched_ := true, timestamp_ := 7 } ∧
    (step (sampleCollaborators 3)
        { sampleEnabledSystem true true with matched_ := true, timestamp_ := 7 }).log.filter
      Event.isSetBasetime = [Event.setBasetime 7] :=
  ⟨by decide,
    (basetime_is_timestamp (sampleCollaborators 3)
      { sampleEnabledSystem true true with matched_ := true, timestamp_ := 7 }
      (by decide) rfl).1⟩

/-- Claim C15: when at least one queue is empty, `step` returns having called nothing but the
mutex (no robot state, estimator or publisher call), and leaves the whole system unchanged:
robot state, held packet, update counter, queues and time-matching members. -/
theorem step_starvation_skips (P : Collaborators J C E S) (s : CheetahSystem J C E S)
    (h : s.cheetah_buffer_.timestamp_q = [] ∨ s.cheetah_buffer_.imu_q = [] ∨
      s.cheetah_buffer_.joint_state_q = [] ∨ s.cheetah_buffer_.contact_q = []) :
    (step P s).hasUpdated = false ∧ (step P s).sys = s ∧
      (step P s).log = [Event.lock, Event.unlock] := by
  have hs : ¬ packetAvailable s := by
    unfold packetAvailable
    tauto
  rw [step_starved P s hs]
  exact ⟨rfl, rfl, rfl⟩

/-- Claim C15 on a sample state past warm-up whose queues are all empty. -/
theorem step_starvation_skips_witness :
    (sampleSyncSystem [sampleMessage 7 0]).cheetah_buffer_.timestamp_q = [] ∧
    (step (sampleCollaborators 3) (sampleSyncSystem [sampleMessage 7 0])).sys =
      sampleSyncSystem [sampleMessage 7 0] ∧
    (step (sampleCollaborators 3) (sampleSyncSystem [sampleMessage 7 0])).log =
      [Event.lock, Event.unlock] :=
  ⟨rfl, (step_starvation_skips (sampleCollaborators 3) (sampleSyncSystem [sampleMessage 7 0])
    (Or.inl rfl)).2⟩

/-- Claim C16: with a packet available and the estimator enabled, the calls of a cycle are,
in this order (after the mutex and the `enabled()` query), `state_.set` of the packet,
`setContacts` of the state just set, `update` of the packet and the state `setContacts` left,
`setBasetime`, then `posePublish` (followed by the pose file writer `poseCallback`) exactly
when the pose toggle is on, then `statePublish` exactly when the state toggle is on, the
publishers receiving the stamped state; in a cycle where the estimator is not enabled no
publisher is called and base time is not stamped, whatever the toggles. -/
theorem step_enabled_order (P : Collaborators J C E S) (s : CheetahSystem J C E S) :
    (packetAvailable s → P.enabled s.estimator_ = true →
      (step P s).log =
        [Event.lock, Event.unlock, Event.stateSet (updateNextPacket s).sys.cheetah_packet_,
          Event.enabledQuery true,
          Event.setContacts (P.set (updateNextPacket s).sys.cheetah_packet_ s.state_),
          Event.update (updateNextPacket s).sys.cheetah_packet_
            (P.setContacts (P.set (updateNextPacket s).sys.cheetah_packet_ s.state_)
              s.estimator_).2,
          Event.setBasetime s.timestamp_] ++
        (if s.enable_pose_publisher_ then
          [Event.posePublish (P.setBasetime s.timestamp_
              (P.update (updateNextPacket s).sys.cheetah_packet_
                (P.setContacts (P.set (updateNextPacket s).sys.cheetah_packet_ s.state_)
                  s.estimator_).2
                (P.setContacts (P.set (updateNextPacket s).sys.cheetah_packet_ s.state_)
                  s.estimator_).1).2),
            Event.poseCallback (P.setBasetime s.timestamp_
              (P.update (updateNextPacket s).sys.cheetah_packet_
                (P.setContacts (P.set (updateNextPacket s).sys.cheetah_packet_ s.state_)
                  s.estimator_).2
                (P.setContacts (P.set (updateNextPacket s).sys.cheetah_packet_ s.state_)
                  s.estimator_).1).2)]
          else []) ++
        (if s.enable_state_publisher_ then
          [Event.statePublish (P.setBasetime s.timestamp_
              (P.update (updateNextPacket s).sys.cheetah_packet_
                (P.setContacts (P.set (updateNextPacket s).sys.cheetah_packet_ s.state_)
                  s.estimator_).2
                (P.setContacts (P.set (updateNextPacket s).sys.cheetah_packet_ s.state_)
                  s.estimator_).1).2)]
          else [])) ∧
    (P.enabled s.estimator_ = false →
      (step P s).log.filter Event.isPublisher = [] ∧
        (step P s).log.filter Event.isSetBasetime = []) := by
  constructor
  · intro h hen
    obtain ⟨-, hs, hl⟩ := step_enabled P s h hen
    rw [hl, hs]
  · intro hen
    by_cases ha : packetAvailable s
    · cases hb : P.biasInitialized s.estimator_
      · rw [step_calibrating P s ha hen hb]
        simp [Event.isPublisher, Event.isSetBasetime]
      · rw [step_readyToInit P s ha hen hb]
        simp [Event.isPublisher, Event.isSetBasetime]
    · rw [step_starved P s ha]
      simp [Event.isPublisher, Event.isSetBasetime]

/-- The mutex is free again after `updateNextPacket`, and everything else a cycle calls comes
after that. -/
theorem step_log_prefix (P : Collaborators J C E S) (s : CheetahSystem J C E S) :
    ∃ rest : List (Event J C S), (step P s).log = Event.lock :: Event.unlock :: rest ∧
      rest.all (fun e => !e.isLock && !e.isUnlock) = true := by
  by_cases ha : packetAvailable s
  · cases hen : P.enabled s.estimator_
    · cases hb : P.biasInitialized s.estimator_
      · rw [step_calibrating P s ha hen hb]
        exact ⟨_, rfl, by simp [Event.isLock, Event.isUnlock]⟩
      · rw [step_readyToInit P s ha hen hb]
        exact ⟨_, rfl, by simp [Event.isLock, Event.isUnlock]⟩
    · rw [(step_enabled P s ha hen).2.2]
      refine ⟨_, rfl, ?_⟩
      cases s.enable_pose_publisher_ <;> cases s.enable_state_publisher_ <;>
        simp [Event.isLock, Event.isUnlock]
  · rw [step_starved P s ha]
    exact ⟨[], rfl, rfl⟩

/-- A log without mutex calls, replayed with the mutex free, is accepted. -/
theorem lockScopeOk_of_no_mutex (l : List (Event J C S))
    (h : l.all (fun e => !e.isLock && !e.isUnlock) = true) : lockScopeOk false l = true := by
  induction l with
  | nil => rfl
  | cons e l ih =>
    simp only [List.all_cons, Bool.and_eq_true] at h
    obtain ⟨he, hl⟩ := h
    cases e
    case lock => simp [Event.isLock] at he
    case unlock => simp [Event.isUnlock] at he
    all_goals simp [lockScopeOk, ih hl]

/-- Claim C17: with lock and unlock as events, every call of `updateNextPacket` makes exactly
one lock followed by one unlock, whether or not it assembles a packet; and in every cycle of
`step` the mutex is acquired once, released once, and every robot state, estimator and
publisher call is made while it is free. -/
theorem lock_scope (P : Collaborators J C E S) (s : CheetahSystem J C E S) :
    (updateNextPacket s).log = [Event.lock, Event.unlock] ∧
    (updateNextPacket s).log.countP Event.isLock = 1 ∧
    (updateNextPacket s).log.countP Event.isUnlock = 1 ∧
    lockScopeOk false (step P s).log = true ∧
    (step P s).log.countP Event.isLock = 1 ∧
    (step P s).log.countP Event.isUnlock = 1 := by
  have hu : (updateNextPacket s).log = [Event.lock, Event.unlock] := by
    unfold updateNextPacket
    simp only
    split <;> rfl
  obtain ⟨rest, hl, hr⟩ := step_log_prefix P s
  refine ⟨hu, by rw [hu]; rfl, by rw [hu]; rfl, ?_, ?_, ?_⟩
  · rw [hl]
    simp [lockScopeOk, lockScopeOk_of_no_mutex rest hr]
  · rw [hl]
    have h0 : rest.countP Event.isLock = 0 := by
      rw [List.countP_eq_zero]
      intro e he
      have := List.all_eq_true.1 hr e he
      simp only [Bool.and_eq_true, Bool.not_eq_true'] at this
      simp [this.1]
    simp [List.countP_cons, Event.isLock, h0]
  · rw [hl]
    have h0 : rest.countP Event.isUnlock = 0 := by
      rw [List.countP_eq_zero]
      intro e he
      have := List.all_eq_true.1 hr e he
      simp only [Bool.and_eq_true, Bool.not_eq_true'] at this
      simp [this.2]
    simp [List.countP_cons, Event.isUnlock, h0]

/-- Claim C16 on a sample Enabled cycle with the pose toggle on and the state toggle off:
`posePublish` is called after `setBasetime`, `statePublish` is not called. -/
theorem step_enabled_order_witness :
    (step (sampleCollaborators 3) (sampleEnabledSystem true false)).log.filter
      Event.isPublisher = [Event.posePublish (4, 0), Event.poseCallback (4, 0)] ∧
    (step (sampleCollaborators 3) (sampleEnabledSystem true false)).log.filter
      Event.isEstimation =
        [Event.setContacts (4, 0),
          Event.update ⟨4, some ⟨⟨0, 0, 0⟩⟩, some 3, some true⟩ (4, 0)] := by
  have h4 : (3 : ℚ) + 1 = 4 := by norm_num
  rw [(step_enabled_order (sampleCollaborators 3) (sampleEnabledSystem true false)).1
    (by decide) rfl]
  constructor <;>
    simp [updateNextPacket, sampleEnabledSystem, sampleSyncSystem, sampleCollaborators,
      sampleArrivals, CheetahPacket.setTime, Event.isPublisher, Event.isEstimation, h4]

end Cycle

section Counting

variable {J C E S : Type}

/-! ## The update counter, unequal queues, and the packet the scan reads -/

/-- Over a run that does not fault, the counter grows by the number of cycles that assembled a
packet. -/
theorem runActions_updated (P : Collaborators J C E S) (acts : List (Action J C))
    (s : CheetahSystem J C E S) (r : Ended J C E S) (h : runActions P acts s = some r) :
    r.sys.updated_ = s.updated_ + successfulSteps P acts s := by
  induction acts generalizing s with
  | nil =>
    simp only [runActions, Option.some.injEq] at h
    rw [← h]
    rfl
  | cons a rest ih =>
    cases a with
    | pushTimestamp x =>
      rw [runActions_cons_returned P (Action.pushTimestamp x) rest s _ rfl] at h
      rw [successfulSteps_cons_returned P (Action.pushTimestamp x) rest s _ rfl, ih _ h]
      simp
    | pushImu x =>
      rw [runActions_cons_returned P (Action.pushImu x) rest s _ rfl] at h
      rw [successfulSteps_cons_returned P (Action.pushImu x) rest s _ rfl, ih _ h]
      simp
    | pushJointState x =>
      rw [runActions_cons_returned P (Action.pushJointState x) rest s _ rfl] at h
      rw [successfulSteps_cons_returned P (Action.pushJointState x) rest s _ rfl, ih _ h]
      simp
    | pushContact x =>
      rw [runActions_cons_returned P (Action.pushContact x) rest s _ rfl] at h
      rw [successfulSteps_cons_returned P (Action.pushContact x) rest s _ rfl, ih _ h]
      simp
    | step =>
      rw [runActions_cons_returned P Action.step rest s _ rfl] at h
      rw [successfulSteps_cons_returned P Action.step rest s _ rfl, ih _ h,
        (step_frame P s).2.1]
      simp only
      omega
    | timesync m =>
      simp only [runActions, applyAction] at h
      cases hu : timesyncCallback P s m with
      | none => simp [hu] at h
      | some u =>
        simp only [hu] at h
        have hk := (timesyncCallback_keeps P s u m hu).1
        by_cases ht : u.threw = true
        · simp only [ht, if_true, Option.some.injEq] at h
          rw [← h, hk]
          simp [successfulSteps, applyAction, hu, ht]
        · simp only [ht] at h
          rw [ih u.sys h, hk]
          simp [successfulSteps, applyAction, hu, ht]

/-- Claim C18: the counter `updated_` starts at 0; a cycle of `step` increases it by exactly 1
when `updateNextPacket` returned true and leaves it otherwise, whatever branch is taken; a
callback leaves it, however it ends; so after any run from a system just constructed it
equals the number of cycles that assembled a packet, warm-up is over exactly when that number
has reached 15, and over any run the counter does not decrease. -/
theorem updated_counts_assemblies (P : Collaborators J C E S) :
    (∀ (buffer : CheetahBuffer J C) (st : S) (est : E) (pose state : Bool),
      (CheetahSystem.init buffer st est pose state : CheetahSystem J C E S).updated_ = 0) ∧
    (∀ s : CheetahSystem J C E S,
      (step P s).hasUpdated = (updateNextPacket s).hasUpdated ∧
      (step P s).sys.updated_ =
        s.updated_ + (if (updateNextPacket s).hasUpdated then 1 else 0)) ∧
    (∀ (s : CheetahSystem J C E S) (r : Ended J C E S) (imu_message : SensorImu),
      timesyncCallback P s imu_message = some r → r.sys.updated_ = s.updated_) ∧
    (∀ (acts : List (Action J C)) (buffer : CheetahBuffer J C) (st : S) (est : E)
        (pose state : Bool),
      ∃ r, runActions P acts (CheetahSystem.init buffer st est pose state) = some r ∧
        r.sys.updated_ =
          successfulSteps P acts (CheetahSystem.init buffer st est pose state) ∧
        (15 ≤ r.sys.updated_ ↔
          15 ≤ successfulSteps P acts (CheetahSystem.init buffer st est pose state))) ∧
    (∀ (acts : List (Action J C)) (s : CheetahSystem J C E S) (r : Ended J C E S),
      runActions P acts s = some r → s.updated_ ≤ r.sys.updated_) := by
  refine ⟨fun _ _ _ _ _ => rfl, fun s => ⟨(step_frame P s).1, (step_frame P s).2.1⟩,
    fun s r m h => (timesyncCallback_keeps P s r m h).1, ?_, ?_⟩
  · intro acts buffer st est pose state
    obtain ⟨r, hr, -⟩ := runActions_total P acts _
      (init_packetAssigned buffer st est pose state)
    have hu := runActions_updated P acts _ r hr
    have h0 : (CheetahSystem.init buffer st est pose state : CheetahSystem J C E S).updated_
        = 0 := rfl
    rw [h0, Nat.zero_add] at hu
    exact ⟨r, hr, hu, by rw [hu]⟩
  · intro acts s r h
    rw [runActions_updated P acts s r h]
    omega

/-- Pairing by position stops at the shortest queue. -/
theorem zipReadings_length (tq : List ℚ) (iq : List ImuMeasurement) (jq : List J)
    (cq : List C) :
    (zipReadings tq iq jq cq).length =
      min (min tq.length iq.length) (min jq.length cq.length) := by
  induction tq generalizing iq jq cq with
  | nil => simp [zipReadings]
  | cons t tq ih =>
    cases iq with
    | nil => simp [zipReadings]
    | cons i iq =>
      cases jq with
      | nil => simp [zipReadings]
      | cons j jq =>
        cases cq with
        | nil => simp [zipReadings]
        | cons c cq =>
          simp only [zipReadings, List.length_cons, ih]
          omega

/-- The tuple at position `k` of the pairing is made of the elements at position `k` of the
four queues. -/
theorem zipReadings_getElem? (tq : List ℚ) (iq : List ImuMeasurement) (jq : List J)
    (cq : List C) (k : Nat) (r : Reading J C) (h : (zipReadings tq iq jq cq)[k]? = some r) :
    tq[k]? = some r.timestamp ∧ iq[k]? = some r.imu ∧ jq[k]? = some r.joint_state ∧
      cq[k]? = some r.contact := by
  induction tq generalizing iq jq cq k with
  | nil => simp [zipReadings] at h
  | cons t tq ih =>
    cases iq with
    | nil => simp [zipReadings] at h
    | cons i iq =>
      cases jq with
      | nil => simp [zipReadings] at h
      | cons j jq =>
        cases cq with
        | nil => simp [zipReadings] at h
        | cons c cq =>
          cases k with
          | zero =>
            simp only [zipReadings, List.getElem?_cons_zero, Option.some.injEq] at h
            rw [← h]
            simp
          | succ k =>
            simp only [zipReadings, List.getElem?_cons_succ] at h
            simpa using ih iq jq cq k h

/-- Draining queues of any lengths: one packet per position of the pairing, in order, then
nothing; the queues are left without the elements taken. -/
theorem updateNextPacketTimes_zip (tq : List ℚ) (iq : List ImuMeasurement) (jq : List J)
    (cq : List C) (e : Nat) (s : CheetahSystem J C E S)
    (h : s.cheetah_buffer_ = ⟨tq, iq, jq, cq⟩) :
    (updateNextPacketTimes ((zipReadings tq iq jq cq).length + e) s).map Outcome.delivered =
      (zipReadings tq iq jq cq).map (fun r => some r.toPacket) ++ List.replicate e none ∧
    (updateNextPacketAfter ((zipReadings tq iq jq cq).length + e) s).cheetah_buffer_ =
      ⟨tq.drop (zipReadings tq iq jq cq).length, iq.drop (zipReadings tq iq jq cq).length,
        jq.drop (zipReadings tq iq jq cq).length, cq.drop (zipReadings tq iq jq cq).length⟩ := by
  have hstarved : ∀ (s : CheetahSystem J C E S) (k : Nat), ¬ packetAvailable s →
      updateNextPacketAfter k s = s := by
    intro s k hs
    induction k with
    | zero => rfl
    | succ k ih =>
      simp only [updateNextPacketAfter]
      rw [updateNextPacket_starved s hs]
      exact ih
  have hempty : ∀ (s : CheetahSystem J C E S), ¬ packetAvailable s →
      zipReadings s.cheetah_buffer_.timestamp_q s.cheetah_buffer_.imu_q
        s.cheetah_buffer_.joint_state_q s.cheetah_buffer_.contact_q = [] := by
    intro s hs
    obtain ⟨⟨a, b, c, d⟩, _⟩ := s
    cases a <;> cases b <;> cases c <;> cases d <;>
      simp [packetAvailable, zipReadings] at hs ⊢
  induction tq generalizing iq jq cq s with
  | nil =>
    have hs : ¬ packetAvailable s := by simp [packetAvailable, h]
    have hz := hempty s hs
    rw [h] at hz
    simp only at hz
    rw [hz]
    simp only [List.length_nil, Nat.zero_add, List.map_nil, List.nil_append, List.drop_zero]
    rw [updateNextPacketTimes_starved s hs e, hstarved s e hs, h]
    simp [Outcome.delivered]
  | cons t tq ih =>
    by_cases hs : packetAvailable s
    · obtain ⟨t', ts', i, is, j, js, c, cs, hq⟩ := packetAvailable_cons s hs
      rw [h] at hq
      simp only [CheetahBuffer.mk.injEq, List.cons.injEq] at hq
      obtain ⟨⟨rfl, rfl⟩, rfl, rfl, rfl⟩ := hq
      have hu := updateNextPacket_cons s t tq i is j js c cs h
      have hk : (zipReadings (t :: tq) (i :: is) (j :: js) (c :: cs)).length + e =
          ((zipReadings tq is js cs).length + e) + 1 := by
        simp only [zipReadings, List.length_cons]; omega
      rw [hk]
      simp only [updateNextPacketTimes, updateNextPacketAfter, List.map_cons]
      rw [hu]
      obtain ⟨h1, h2⟩ := ih is js cs
        { s with
          cheetah_packet_ := ⟨t, some i, some j, some c⟩
          cheetah_buffer_ := ⟨tq, is, js, cs⟩ } rfl
      simp only [zipReadings, List.map_cons, List.cons_append, List.length_cons,
        List.drop_succ_cons]
      exact ⟨by rw [h1]; simp [Outcome.delivered, Reading.toPacket], h2⟩
    · have hz := hempty s hs
      rw [h] at hz
      simp only at hz
      rw [hz]
      simp only [List.length_nil, Nat.zero_add, List.map_nil, List.nil_append, List.drop_zero]
      rw [updateNextPacketTimes_starved s hs e, hstarved s e hs, h]
      simp [Outcome.delivered]

/-- A call returned true exactly when it handed over a packet. -/
theorem map_hasUpdated_eq (l : List (Outcome J C E S)) :
    l.map Outcome.hasUpdated = (l.map Outcome.delivered).map Option.isSome := by
  rw [List.map_map]
  apply List.map_congr_left
  intro r _
  simp only [Function.comp, Outcome.delivered]
  cases r.hasUpdated <;> rfl

/-- Claim C19: with queues `tq`, `iq`, `jq`, `cq` of any lengths and no further push, writing
`m` for the least of the four lengths, the first `m` calls of `updateNextPacket` return true
and each of the `e` calls after them returns false; the `k`-th successful call hands over the
packet made of the `k`-th elements of the four queues; and after the calls each queue holds
its elements from position `m` on, so its length is its former length minus `m`. -/
theorem updateNextPacket_unequal_queues (s0 : CheetahSystem J C E S) (tq : List ℚ)
    (iq : List ImuMeasurement) (jq : List J) (cq : List C) (e : Nat) :
    (updateNextPacketTimes (min (min tq.length iq.length) (min jq.length cq.length) + e)
        { s0 with cheetah_buffer_ := ⟨tq, iq, jq, cq⟩ }).map Outcome.hasUpdated =
      List.replicate (min (min tq.length iq.length) (min jq.length cq.length)) true ++
        List.replicate e false ∧
    (updateNextPacketTimes (min (min tq.length iq.length) (min jq.length cq.length) + e)
        { s0 with cheetah_buffer_ := ⟨tq, iq, jq, cq⟩ }).map Outcome.delivered =
      (zipReadings tq iq jq cq).map (fun r => some r.toPacket) ++ List.replicate e none ∧
    (zipReadings tq iq jq cq).length =
      min (min tq.length iq.length) (min jq.length cq.length) ∧
    (∀ (k : Nat) (r : Reading J C), (zipReadings tq iq jq cq)[k]? = some r →
      tq[k]? = some r.timestamp ∧ iq[k]? = some r.imu ∧ jq[k]? = some r.joint_state ∧
        cq[k]? = some r.contact) ∧
    (updateNextPacketAfter (min (min tq.length iq.length) (min jq.length cq.length) + e)
        { s0 with cheetah_buffer_ := ⟨tq, iq, jq, cq⟩ }).cheetah_buffer_ =
      ⟨tq.drop (min (min tq.length iq.length) (min jq.length cq.length)),
        iq.drop (min (min tq.length iq.length) (min jq.length cq.length)),
        jq.drop (min (min tq.length iq.length) (min jq.length cq.length)),
        cq.drop (min (min tq.length iq.length) (min jq.length cq.length))⟩ ∧
    (tq.drop (min (min tq.length iq.length) (min jq.length cq.length))).length =
      tq.length - min (min tq.length iq.length) (min jq.length cq.length) ∧
    (iq.drop (min (min tq.length iq.length) (min jq.length cq.length))).length =
      iq.length - min (min tq.length iq.length) (min jq.length cq.length) ∧
    (jq.drop (min (min tq.length iq.length) (min jq.length cq.length))).length =
      jq.length - min (min tq.length iq.length) (min jq.length cq.length) ∧
    (cq.drop (min (min tq.length iq.length) (min jq.length cq.length))).length =
      cq.length - min (min tq.length iq.length) (min jq.length cq.length) := by
  have hl := zipReadings_length tq iq jq cq
  obtain ⟨h1, h2⟩ := updateNextPacketTimes_zip tq iq jq cq e
    ({ s0 with cheetah_buffer_ := ⟨tq, iq, jq, cq⟩ } : CheetahSystem J C E S) rfl
  rw [hl] at h1 h2
  refine ⟨?_, h1, hl, fun k r hk => zipReadings_getElem? tq iq jq cq k r hk, h2,
    List.length_drop _ _, List.length_drop _ _, List.length_drop _ _, List.length_drop _ _⟩
  rw [map_hasUpdated_eq, h1, ← hl]
  simp [List.map_replicate, Function.comp_def]

/-- Claim C18 on a sample run: 14 cycles with a packet and a callback after each leave the
counter at 14, the number of cycles that assembled a packet. -/
theorem updated_counts_assemblies_witness :
    successfulSteps (sampleCollaborators 3) (sampleRun 14) sampleSystem = 14 ∧
    ∃ r, runActions (sampleCollaborators 3) (sampleRun 14) sampleSystem = some r ∧
      r.sys.updated_ = successfulSteps (sampleCollaborators 3) (sampleRun 14) sampleSystem ∧
      (15 ≤ r.sys.updated_ ↔
        15 ≤ successfulSteps (sampleCollaborators 3) (sampleRun 14) sampleSystem) :=
  ⟨by decide,
    (updated_counts_assemblies (sampleCollaborators 3)).2.2.2.1 (sampleRun 14)
      CheetahBuffer.empty (0, 0) (0, false) false false⟩

/-- Claim C19 on sample queues of lengths 3, 2, 4 and 2: two calls succeed, two more fail, and
the queues are left with 1, 0, 2 and 0 elements. -/
theorem updateNextPacket_unequal_queues_witness :
    (updateNextPacketTimes 4
        { sampleSystem with cheetah_buffer_ :=
            ⟨[1, 2, 3], [⟨⟨0, 0, 0⟩⟩, ⟨⟨1, 1, 1⟩⟩], [5, 6, 7, 8], [true, false]⟩ }).map
      Outcome.hasUpdated = [true, true, false, false] ∧
    (updateNextPacketAfter 4
        { sampleSystem with cheetah_buffer_ :=
            ⟨[1, 2, 3], [⟨⟨0, 0, 0⟩⟩, ⟨⟨1, 1, 1⟩⟩], [5, 6, 7, 8], [true, false]⟩ }).cheetah_buffer_
      = ⟨[3], [], [7, 8], []⟩ :=
  ⟨(updateNextPacket_unequal_queues sampleSystem [1, 2, 3] [⟨⟨0, 0, 0⟩⟩, ⟨⟨1, 1, 1⟩⟩]
      [5, 6, 7, 8] [true, false] 2).1,
    (updateNextPacket_unequal_queues sampleSystem [1, 2, 3] [⟨⟨0, 0, 0⟩⟩, ⟨⟨1, 1, 1⟩⟩]
      [5, 6, 7, 8] [true, false] 2).2.2.2.2.1⟩

/-- The last assembled packet is tracked on after an action that returned. -/
theorem lastAssembled_cons_returned (P : Collaborators J C E S) (a : Action J C)
    (rest : List (Action J C)) (s t : CheetahSystem J C E S)
    (acc : Option (CheetahPacket J C))
    (h : applyAction P s a = some { sys := t, threw := false }) :
    lastAssembled P (a :: rest) s acc =
      lastAssembled P rest t
        (match a with
          | Action.step =>
            if (updateNextPacket s).hasUpdated then (updateNextPacket s).delivered else acc
          | _ => acc) := by
  cases a <;> simp only [lastAssembled, h, Bool.false_eq_true, if_false]

/-- Over a run that does not fault, once an update is counted the held packet is the one
assembled by the last successful cycle. -/
theorem runActions_lastAssembled (P : Collaborators J C E S) (acts : List (Action J C))
    (s : CheetahSystem J C E S) (r : Ended J C E S) (acc : Option (CheetahPacket J C))
    (hacc : 1 ≤ s.updated_ → acc = some s.cheetah_packet_)
    (h : runActions P acts s = some r) (ht : 1 ≤ r.sys.updated_) :
    lastAssembled P acts s acc = some r.sys.cheetah_packet_ := by
  induction acts generalizing s acc with
  | nil =>
    simp only [runActions, Option.some.injEq] at h
    rw [← h] at ht ⊢
    exact hacc ht
  | cons a rest ih =>
    cases a with
    | pushTimestamp x =>
      rw [runActions_cons_returned P (Action.pushTimestamp x) rest s _ rfl] at h
      rw [lastAssembled_cons_returned P (Action.pushTimestamp x) rest s _ acc rfl]
      exact ih _ acc hacc h
    | pushImu x =>
      rw [runActions_cons_returned P (Action.pushImu x) rest s _ rfl] at h
      rw [lastAssembled_cons_returned P (Action.pushImu x) rest s _ acc rfl]
      exact ih _ acc hacc h
    | pushJointState x =>
      rw [runActions_cons_returned P (Action.pushJointState x) rest s _ rfl] at h
      rw [lastAssembled_cons_returned P (Action.pushJointState x) rest s _ acc rfl]
      exact ih _ acc hacc h
    | pushContact x =>
      rw [runActions_cons_returned P (Action.pushContact x) rest s _ rfl] at h
      rw [lastAssembled_cons_returned P (Action.pushContact x) rest s _ acc rfl]
      exact ih _ acc hacc h
    | step =>
      rw [runActions_cons_returned P Action.step rest s _ rfl] at h
      rw [lastAssembled_cons_returned P Action.step rest s _ acc rfl]
      apply ih _ _ _ h
      intro h1
      obtain ⟨-, hu, -, hp, -⟩ := step_frame P s
      cases hup : (updateNextPacket s).hasUpdated
      · rw [hup] at hu
        simp only [Bool.false_eq_true, if_false, Nat.add_zero] at hu ⊢
        have hs : ¬ packetAvailable s := by
          rw [← updateNextPacket_hasUpdated_iff, hup]
          simp
        rw [step_starved P s hs]
        exact hacc (by rw [← hu]; exact h1)
      · simp only [if_true, Outcome.delivered, hup, hp]
    | timesync m =>
      simp only [runActions, applyAction] at h
      cases hu : timesyncCallback P s m with
      | none => simp [hu] at h
      | some u =>
        simp only [hu] at h
        obtain ⟨h1, h2, -⟩ := timesyncCallback_keeps P s u m hu
        by_cases hth : u.threw = true
        · simp only [hth, if_true, Option.some.injEq] at h
          rw [← h] at ht ⊢
          simp only [lastAssembled, applyAction, hu, hth, if_true]
          rw [h2]
          exact hacc (by rw [← h1]; exact ht)
        · simp only [hth] at h
          simp only [lastAssembled, applyAction, hu, hth]
          exact ih u.sys acc (by rw [h1, h2]; exact hacc) h

/-- Claim C20: from a system just constructed, no run of producer pushes, cycles of `step` and
callbacks faults (a callback never reads an unassigned packet), and in the system reached no
callback faults; once warm-up is over there (15 updates counted), the held packet is the
packet assembled by the most recent successful cycle, its IMU reading is assigned, and a
callback is exactly this: after the append step, while unmatched, the first buffered sample
that passes the test against that packet's IMU reading is searched, and lines 140-146 run for
the sample found. -/
theorem scan_reads_assembled_packet (P : Collaborators J C E S) (acts : List (Action J C))
    (buffer : CheetahBuffer J C) (st : S) (est : E) (pose state : Bool) :
    ∃ r, runActions P acts (CheetahSystem.init buffer st est pose state) = some r ∧
      (∀ imu_message : SensorImu, ∃ o, timesyncCallback P r.sys imu_message = some o) ∧
      (15 ≤ r.sys.updated_ →
        ∃ imu,
          lastAssembled P acts (CheetahSystem.init buffer st est pose state) none =
            some r.sys.cheetah_packet_ ∧
          r.sys.cheetah_packet_.imu = some imu ∧
          ∀ imu_message : SensorImu,
            timesyncCallback P r.sys imu_message =
              (if r.sys.matched_ = false then
                some (match (bufferSample r.sys imu_message).imu_buffer_.find?
                    (fun b => axesMatch P imu b) with
                  | none => { sys := bufferSample r.sys imu_message, threw := false }
                  | some b => resolveOffset P (bufferSample r.sys imu_message) b)
              else some { sys := bufferSample r.sys imu_message, threw := false })) := by
  obtain ⟨r, hr, hpr⟩ := runActions_total P acts _
    (init_packetAssigned buffer st est pose state)
  refine ⟨r, hr, fun m => timesyncCallback_total P r.sys m hpr, ?_⟩
  intro h15
  obtain ⟨imu, himu⟩ := hpr (by omega)
  refine ⟨imu, ?_, himu, ?_⟩
  · apply runActions_lastAssembled P acts _ r none _ hr (by omega)
    intro h0
    simp [CheetahSystem.init] at h0
  · intro m
    have hu : (bufferSample r.sys m).updated_ = r.sys.updated_ := by rw [bufferSample_eq]
    have hp : (bufferSample r.sys m).cheetah_packet_ = r.sys.cheetah_packet_ := by
      rw [bufferSample_eq]
    have hmm : (bufferSample r.sys m).matched_ = r.sys.matched_ := by rw [bufferSample_eq]
    unfold timesyncCallback
    simp only
    by_cases hm : r.sys.matched_ = false
    · rw [if_pos ⟨by rw [hmm]; exact hm, by rw [hu]; exact h15⟩, if_pos hm]
      exact scanBuffer_eq_find P _ imu (by rw [hp]; exact himu) _
    · rw [if_neg (by rw [hmm]; exact fun h => hm h.1), if_neg hm]

set_option maxRecDepth 8000 in
/-- Claim C20 on a sample run: 16 cycles assemble a packet, so warm-up is over; a callback
with a sample stamped 100 follows; the run does not fault, and the held packet is the one the
sixteenth cycle assembled. -/
theorem scan_reads_assembled_packet_witness :
    (runActions (sampleCollaborators 3) (sampleQuietRun 16) sampleSystem).map
      (fun r => r.sys.updated_) = some 16 ∧
    ∃ r, runActions (sampleCollaborators 3)
        (sampleQuietRun 16 ++ [Action.timesync (sampleMessage 100 0)]) sampleSystem = some r ∧
      (∀ imu_message : SensorImu,
        ∃ o, timesyncCallback (sampleCollaborators 3) r.sys imu_message = some o) ∧
      (15 ≤ r.sys.updated_ →
        ∃ imu,
          lastAssembled (sampleCollaborators 3)
              (sampleQuietRun 16 ++ [Action.timesync (sampleMessage 100 0)]) sampleSystem
              none = some r.sys.cheetah_packet_ ∧
          r.sys.cheetah_packet_.imu = some imu ∧
          ∀ imu_message : SensorImu,
            timesyncCallback (sampleCollaborators 3) r.sys imu_message =
              (if r.sys.matched_ = false then
                some (match (bufferSample r.sys imu_message).imu_buffer_.find?
                    (fun b => axesMatch (sampleCollaborators 3) imu b) with
                  | none => { sys := bufferSample r.sys imu_message, threw := false }
                  | some b =>
                    resolveOffset (sampleCollaborators 3) (bufferSample r.sys imu_message) b)
              else some { sys := bufferSample r.sys imu_message, threw := false })) :=
  ⟨by decide,
    scan_reads_assembled_packet (sampleCollaborators 3)
      (sampleQuietRun 16 ++ [Action.timesync (sampleMessage 100 0)]) CheetahBuffer.empty
      (0, 0) (0, false) false false⟩

end Counting

end Cheetah
